import Mathlib

/-!
Shallow embedding of the PSA crypto secure-partition service
(components/TARGET_PSA/services/crypto/COMPONENT_SPE/psa_crypto_partition.c)
together with the access-control registry interface
(psa_crypto_access_control.h) and the platform key-id types
(features/mbedtls/mbed-crypto/inc/psa/crypto_platform.h).

Modelling conventions:
- The Crypto Engine and the Secure Channel are external collaborators; they
  are modelled as an oracle record (`Engine`).  Each handler returns, besides
  its status and updated global state, a trace of observable events
  (engine invocations, output-parameter writes, replies, context
  allocation/release, registry updates).
- Machine integers are Nat/Int; the clone-slot reference count is a C
  `uint8_t`, so every update is taken modulo 256.
- The transport is modelled as always delivering the declared number of
  bytes; a declared/actual length mismatch is an SPM_PANIC (process abort)
  in the source and is outside the recoverable behaviour modelled here.
  Process aborts that are reachable in the model (unexpected message type,
  wrong key-id size) are modelled as `none` results.
- A handler-local C `psa_status_t status;` variable with no initializer is
  modelled as `Option PsaStatus`; `none` means the variable was never
  assigned on the path taken (reading it in C is undefined behaviour).
-/

/-- PSA status codes.  The concrete numeric values live in headers that are
not part of this repository; only identity of the codes matters here. -/
inductive PsaStatus where
  | success
  | errInvalidHandle
  | errNotSupported
  | errInsufficientMemory
  | errInvalidArgument
  | errCommunicationFailure
  | errBadState
  | other (code : Int)
deriving DecidableEq, Repr

/-- Modelled from the spec: the operation-code enumeration
(`psa_sec_function_t`, declared in crypto_spe.h) is not under src/.  Codes
are abstract constructors; `invalid` stands for the zero value a
zero-length header read leaves in the zero-initialized local struct, and
for any code not recognized by a given handler the handlers fall through to
their default not-supported branch (spec section 4.6). -/
inductive SecFunc where
  | invalid
  | macSignSetup | macVerifySetup | macUpdate | macSignFinish | macVerifyFinish | macAbort
  | hashSetup | hashUpdate | hashFinish | hashVerify | hashAbort | hashCloneBegin | hashCloneEnd
  | cipherEncryptSetup | cipherDecryptSetup | cipherGenerateIv | cipherSetIv
  | cipherUpdate | cipherFinish | cipherAbort
  | asymmetricSign | asymmetricVerify | asymmetricEncrypt | asymmetricDecrypt
  | aeadEncrypt | aeadDecrypt
  | getKeyLifetime | setKeyPolicy | getKeyPolicy | importKey | destroyKey
  | getKeyInformation | exportKey | exportPublicKey | generateKey
  | allocateKey | createKey | openKey | closeKey
  | getGeneratorCapacity | generatorRead | generatorImportKey | generatorAbort
  | keyDerivation | keyAgreement
deriving DecidableEq, Repr

/-- The Crypto Engine entry points invoked by the partition code. -/
inductive EngineOp where
  | cryptoInit | cryptoFree
  | macSignSetup | macVerifySetup | macUpdate (len : Nat) | macSignFinish
  | macVerifyFinish | macAbort
  | hashSetup | hashUpdate (len : Nat) | hashFinish | hashVerify | hashAbort | hashClone
  | cipherEncryptSetup | cipherDecryptSetup | cipherGenerateIv | cipherSetIv
  | cipherUpdate | cipherFinish | cipherAbort
  | asymmetricSign | asymmetricVerify | asymmetricEncrypt | asymmetricDecrypt
  | aeadEncrypt | aeadDecrypt
  | getKeyLifetime | setKeyPolicy | getKeyPolicy | importKey | destroyKey
  | getKeyInformation | exportKey | exportPublicKey | generateKey
  | allocateKey | createKey | openKey | closeKey
  | getGeneratorCapacity | generatorRead | generatorImportKey | generatorAbort
  | keyDerivation | keyAgreement
  | generateRandom | injectEntropy
deriving DecidableEq, Repr

/-- The per-service-kind signals of the dispatch loop, in the order
crypto_main checks them. -/
inductive Sig where
  | init | mac | hash | symmetric | asymmetric | aead | keyMng | rng | free
  | generator | entropy
deriving DecidableEq, Repr

/-- Observable events emitted while handling one message. -/
inductive Ev where
  | engine (op : EngineOp)
  | write (idx : Nat) (val : Nat)
  | reply (st : Option PsaStatus)
  | allocCtx (ctx : Nat)
  | freeCtx (ctx : Nat)
  | cloneDestroy (src : Option Nat)
  | aclRegister (h : Nat) (pid : Int)
  | aclUnregister (h : Nat)
  | aclInit | aclDestroy | poolReset
deriving DecidableEq, Repr

-- ---------------------------------------------------------------------------
-- Compile-time constants of the source file.  Struct byte sizes are
-- platform-dependent values of headers not under src/; only their identity
-- (equality tests against in_size fields) matters, so fixed representative
-- values are used.
-- ---------------------------------------------------------------------------

def MAX_DATA_CHUNK_SIZE_IN_BYTES : Nat := 400

def MAX_CONCURRENT_HASH_CLONES : Nat := 2

def CLIENT_PSA_KEY_ID_SIZE_IN_BYTES : Nat := 4

/-- Modelled from the spec: byte size of psa_crypto_ipc_t (crypto_spe.h is
not under src/); a fixed representative value. -/
def sizeof_psa_crypto_ipc_t : Nat := 12

/-- Modelled from the spec: byte size of psa_key_mng_ipc_t. -/
def sizeof_psa_key_mng_ipc_t : Nat := 16

/-- Modelled from the spec: byte size of psa_crypto_derivation_ipc_t. -/
def sizeof_psa_crypto_derivation_ipc_t : Nat := 24

def sizeof_psa_key_type_t : Nat := 4

def sizeof_size_t : Nat := 8

/-- Modelled from the spec: the PSA_KEY_TYPE_RSA_KEYPAIR key-type constant;
a fixed representative value. -/
def PSA_KEY_TYPE_RSA_KEYPAIR : Nat := 28688

/-- Modelled from the spec: MBEDTLS_ENTROPY_MAX_SEED_SIZE (mbedtls/entropy.h
is not under src/); a fixed representative value. -/
def MBEDTLS_ENTROPY_MAX_SEED_SIZE : Nat := 1024

-- ---------------------------------------------------------------------------
-- Access Control Registry.
-- Modelled from the spec (section 4.4): the implementation file
-- psa_crypto_access_control.c is not under src/, only its interface header.
-- register is unconditional and records ownership; unregister removes the
-- record; is_permitted is true iff a record exists for the handle with the
-- given owner.
-- ---------------------------------------------------------------------------

/-- The registry state: a list of (key handle, owner partition id) records. -/
abbrev Acl := List (Nat × Int)

/-- Modelled from the spec: `psa_crypto_access_control_init` produces an
empty registry. -/
def psa_crypto_access_control_init : Acl := []

/-- Modelled from the spec: `psa_crypto_access_control_destroy` empties the
registry. -/
def psa_crypto_access_control_destroy (_acl : Acl) : Acl := []

/-- Modelled from the spec: unconditional registration of a handle to an
owner. -/
def psa_crypto_access_control_register_handle (acl : Acl) (h : Nat) (pid : Int) : Acl :=
  (h, pid) :: acl

/-- Modelled from the spec: removes the record for the handle. -/
def psa_crypto_access_control_unregister_handle (acl : Acl) (h : Nat) : Acl :=
  acl.filter (fun r => r.1 ≠ h)

/-- Modelled from the spec: true iff a record exists for the handle with
this owner. -/
def psa_crypto_access_control_is_handle_permitted (acl : Acl) (h : Nat) (pid : Int) : Bool :=
  acl.any (fun r => r.1 == h && r.2 == pid)

-- ---------------------------------------------------------------------------
-- Hash Clone Slot Pool (psa_spm_hash_clone_t and its helpers).
-- ---------------------------------------------------------------------------

/-- One entry of the hash-clone pool: partition_id (int32_t),
source_operation (a pointer, `none` = NULL), ref_count (uint8_t, hence all
updates are mod 256). -/
structure Slot where
  partition_id : Int
  source_operation : Option Nat
  ref_count : Nat
deriving DecidableEq, Repr

/-- The all-zero slot, the state a freed pool entry is reset to. -/
def freeSlot : Slot := ⟨0, none, 0⟩

/-- First index whose slot matches the (partition_id, source_operation)
pair: the first loop of reserve_hash_clone. -/
def findPairIdx (pid : Int) (src : Option Nat) : List Slot → Option Nat
  | [] => none
  | s :: rest =>
    if s.partition_id = pid ∧ s.source_operation = src then some 0
    else (findPairIdx pid src rest).map (fun i => i + 1)

/-- First index whose slot is the free sentinel (partition_id 0, NULL
source): the second loop of reserve_hash_clone. -/
def findFreeIdx : List Slot → Option Nat
  | [] => none
  | s :: rest =>
    if s.partition_id = 0 ∧ s.source_operation = none then some 0
    else (findFreeIdx rest).map (fun i => i + 1)

/-- `pool[i]` with the free slot as default (indices are always in range
where this is used). -/
def slotAt (pool : List Slot) (i : Nat) : Slot := pool.getD i freeSlot

/-- reserve_hash_clone: reuse a live slot for the same pair (incrementing
its ref count), else claim the first free slot, else fail with BAD_STATE.
Returns (status, index, new pool); on failure the index is the pool
capacity, as the C loops leave it. -/
def reserve_hash_clone (pool : List Slot) (pid : Int) (src : Option Nat) :
    PsaStatus × Nat × List Slot :=
  match findPairIdx pid src pool with
  | some i =>
    let s := slotAt pool i
    (.success, i, pool.set i { s with ref_count := (s.ref_count + 1) % 256 })
  | none =>
    match findFreeIdx pool with
    | some i =>
      let s := slotAt pool i
      (.success, i,
        pool.set i ⟨pid, src, (s.ref_count + 1) % 256⟩)
    | none => (.errBadState, pool.length, pool)

/-- release_hash_clone: decrement the (uint8_t) ref count; when it reaches
zero reset the identifying fields. -/
def release_hash_clone (s : Slot) : Slot :=
  let rc := (s.ref_count + 255) % 256
  if rc = 0 then freeSlot
  else ⟨s.partition_id, s.source_operation, rc⟩

/-- destroy_hash_clone: fully reset the first slot whose source_operation
matches (the C loop breaks after the first match). -/
def destroy_hash_clone (pool : List Slot) (src : Option Nat) : List Slot :=
  match findPairIdx' src pool with
  | some i => pool.set i freeSlot
  | none => pool
where
  /-- first index matching on source_operation only -/
  findPairIdx' (src : Option Nat) : List Slot → Option Nat
    | [] => none
    | s :: rest =>
      if s.source_operation = src then some 0
      else (findPairIdx' src rest).map (fun i => i + 1)

/-- get_hash_clone: the slot is returned only when the index is in range,
owned by the caller, and holds a non-NULL source; otherwise BAD_STATE
(modelled as `none`). -/
def get_hash_clone (pool : List Slot) (index : Nat) (pid : Int) : Option Slot :=
  if index ≥ pool.length then none
  else
    let s := slotAt pool index
    if s.partition_id ≠ pid then none
    else if s.source_operation = none then none
    else some s

-- ---------------------------------------------------------------------------
-- External collaborators: the Crypto Engine and the allocator, as oracles.
-- ---------------------------------------------------------------------------

/-- Oracle for the external collaborators of one message handling: the
status every engine entry point returns, the per-chunk statuses of the
update sink, whether the i-th scratch allocation of the call succeeds, the
handle produced by allocate/create/open, the pointer returned by the
context allocation, and the values the engine stores into its output
arguments. -/
structure Engine where
  status : EngineOp → PsaStatus
  updateStatus : Nat → PsaStatus
  allocOk : Nat → Bool
  newHandle : Nat
  newCtx : Nat
  keyType : Nat
  keyBits : Nat
  outVal : EngineOp → Nat

/-- Message kinds (psa_msg_t.type); `other` covers unexpected types, which
the source answers with SPM_PANIC. -/
inductive MsgType where
  | connect | call | disconnect | other (n : Int)
deriving DecidableEq, Repr

/-- psa_crypto_ipc_t: the fixed header of hash/MAC/cipher calls. -/
structure CryptoIpc where
  func : SecFunc
  handle : Nat
  alg : Nat
deriving DecidableEq, Repr

/-- psa_crypto_ipc_asymmetric_t. -/
structure AsymIpc where
  func : SecFunc
  handle : Nat
  alg : Nat
  input_length : Nat
  salt_length : Nat
deriving DecidableEq, Repr

/-- psa_crypto_ipc_aead_t (the nonce bytes themselves are irrelevant to the
claims and are not modelled). -/
structure AeadIpc where
  func : SecFunc
  handle : Nat
  alg : Nat
  input_length : Nat
  additional_data_length : Nat
  nonce_size : Nat
deriving DecidableEq, Repr

/-- psa_key_mng_ipc_t. -/
structure KeyMngIpc where
  func : SecFunc
  handle : Nat
  lifetime : Nat
  ktype : Nat
deriving DecidableEq, Repr

/-- psa_crypto_derivation_ipc_t. -/
structure DerivIpc where
  func : SecFunc
  handle : Nat
  alg : Nat
  capacity : Nat
deriving DecidableEq, Repr

/-- One inbound message (psa_msg_t).  The ipc fields hold the value the
handler-local header struct contains after the psa_read of input
parameter 0 (for a zero declared length the zero-initialized struct is
unchanged, i.e. the field is the all-zero header).  `inVal i` is the
integer value input parameter `i` reads as, where the handler reads a
size_t or key id from it. -/
structure Msg where
  type : MsgType
  client_id : Int
  rhandle : Option Nat
  in_size : Nat → Nat
  out_size : Nat → Nat
  ipc : CryptoIpc
  ipcAsym : AsymIpc
  ipcAead : AeadIpc
  ipcKeyMng : KeyMngIpc
  ipcDeriv : DerivIpc
  inVal : Nat → Nat

/-- The process-wide mutable state of the partition: the init reference
counter, the hash-clone pool and the access-control registry. -/
structure GState where
  refCounter : Int
  pool : List Slot
  acl : Acl
deriving DecidableEq, Repr

/-- A handler returns the updated global state, the value of its local
`status` variable (`none` when the path never assigned it), and the event
trace. -/
abbrev HandlerResult := GState × Option PsaStatus × List Ev

abbrev Handler := Msg → Engine → GState → HandlerResult

-- ---------------------------------------------------------------------------
-- Chunked transfer (the while loops of PSA_HASH_UPDATE / PSA_MAC_UPDATE).
-- ---------------------------------------------------------------------------

/-- The chunk sizes a declared length L is split into: min(remaining, 400)
per iteration. -/
def chunkSizes (L : Nat) : List Nat :=
  if L = 0 then []
  else min L MAX_DATA_CHUNK_SIZE_IN_BYTES ::
    chunkSizes (L - min L MAX_DATA_CHUNK_SIZE_IN_BYTES)
termination_by L
decreasing_by
  simp only [MAX_DATA_CHUNK_SIZE_IN_BYTES]
  omega

/-- The update while loop: reads min(remaining, 400) bytes per iteration
and feeds them to the engine sink `mk`; stops on the first sink failure.
`upd i` is the status of the i-th sink invocation.  Result: the value of
the local `status` variable (`none` when no iteration ran, i.e. the C
variable stays uninitialized) and the sink invocations performed. -/
def updateLoop (upd : Nat → PsaStatus) (mk : Nat → EngineOp) (remaining i : Nat) :
    Option PsaStatus × List Ev :=
  if remaining = 0 then (none, [])
  else
    let sz := min remaining MAX_DATA_CHUNK_SIZE_IN_BYTES
    let s := upd i
    if s = PsaStatus.success then
      let r := updateLoop upd mk (remaining - sz) (i + 1)
      (some (r.1.getD s), Ev.engine (mk sz) :: r.2)
    else
      (some s, [Ev.engine (mk sz)])
termination_by remaining
decreasing_by
  simp only [MAX_DATA_CHUNK_SIZE_IN_BYTES]
  omega

-- ---------------------------------------------------------------------------
-- Crypto lifecycle handlers.
-- ---------------------------------------------------------------------------

/-- crypto_init_on_call: psa_crypto_init is invoked unconditionally; on
success the reference counter is incremented, and on the resulting value 1
the clone pool is zeroed and the registry initialized. -/
def crypto_init_on_call (_msg : Msg) (eng : Engine) (st : GState) : HandlerResult :=
  let status := eng.status .cryptoInit
  if status = PsaStatus.success then
    let c := st.refCounter + 1
    if c = 1 then
      ({ refCounter := c,
         pool := List.replicate st.pool.length freeSlot,
         acl := psa_crypto_access_control_init },
       some status, [Ev.engine .cryptoInit, Ev.poolReset, Ev.aclInit])
    else ({ st with refCounter := c }, some status, [Ev.engine .cryptoInit])
  else (st, some status, [Ev.engine .cryptoInit])

/-- crypto_free_on_call: decrement the counter (floored at 0); whenever the
resulting counter is 0, zero the clone pool, destroy the registry and free
the engine. -/
def crypto_free_on_call (_msg : Msg) (_eng : Engine) (st : GState) : HandlerResult :=
  let st1 := if st.refCounter > 0 then { st with refCounter := st.refCounter - 1 } else st
  if st1.refCounter = 0 then
    ({ st1 with pool := List.replicate st1.pool.length freeSlot,
                acl := psa_crypto_access_control_destroy st1.acl },
     some .success, [Ev.poolReset, Ev.aclDestroy, Ev.engine .cryptoFree])
  else (st1, some .success, [])

-- ---------------------------------------------------------------------------
-- MAC handlers.
-- ---------------------------------------------------------------------------

def mac_on_connect (_msg : Msg) (eng : Engine) (st : GState) : HandlerResult :=
  if eng.allocOk 0 then (st, some .success, [Ev.allocCtx eng.newCtx])
  else (st, some .errInsufficientMemory, [])

def mac_on_call (msg : Msg) (eng : Engine) (st : GState) : HandlerResult :=
  let ipc := msg.ipc
  match ipc.func with
  | .macSignSetup =>
    if psa_crypto_access_control_is_handle_permitted st.acl ipc.handle msg.client_id then
      (st, some (eng.status .macSignSetup), [Ev.engine .macSignSetup])
    else (st, some .errInvalidHandle, [])
  | .macVerifySetup =>
    if psa_crypto_access_control_is_handle_permitted st.acl ipc.handle msg.client_id then
      (st, some (eng.status .macVerifySetup), [Ev.engine .macVerifySetup])
    else (st, some .errInvalidHandle, [])
  | .macUpdate =>
    if eng.allocOk 0 then
      let r := updateLoop eng.updateStatus EngineOp.macUpdate (msg.in_size 1) 0
      (st, r.1, r.2)
    else (st, some .errInsufficientMemory, [])
  | .macSignFinish =>
    if eng.allocOk 0 then
      let s := eng.status .macSignFinish
      (st, some s,
        Ev.engine .macSignFinish ::
          (if s = PsaStatus.success then
            [Ev.write 0 (eng.outVal .macSignFinish), Ev.write 1 (eng.outVal .macSignFinish)]
          else []))
    else (st, some .errInsufficientMemory, [])
  | .macVerifyFinish =>
    if eng.allocOk 0 then
      (st, some (eng.status .macVerifyFinish), [Ev.engine .macVerifyFinish])
    else (st, some .errInsufficientMemory, [])
  | .macAbort => (st, some (eng.status .macAbort), [Ev.engine .macAbort])
  | _ => (st, some .errNotSupported, [])

def mac_on_disconnect (msg : Msg) (_eng : Engine) (st : GState) : HandlerResult :=
  match msg.rhandle with
  | none => (st, some .success, [Ev.engine .macAbort])
  | some ctx => (st, some .success, [Ev.engine .macAbort, Ev.freeCtx ctx])

-- ---------------------------------------------------------------------------
-- Hash handlers.
-- ---------------------------------------------------------------------------

def hash_on_connect (_msg : Msg) (eng : Engine) (st : GState) : HandlerResult :=
  if eng.allocOk 0 then (st, some .success, [Ev.allocCtx eng.newCtx])
  else (st, some .errInsufficientMemory, [])

def hash_on_call (msg : Msg) (eng : Engine) (st : GState) : HandlerResult :=
  let ipc := msg.ipc
  match ipc.func with
  | .hashSetup => (st, some (eng.status .hashSetup), [Ev.engine .hashSetup])
  | .hashUpdate =>
    if eng.allocOk 0 then
      let r := updateLoop eng.updateStatus EngineOp.hashUpdate (msg.in_size 1) 0
      (st, r.1, r.2)
    else (st, some .errInsufficientMemory, [])
  | .hashFinish =>
    if eng.allocOk 0 then
      let s := eng.status .hashFinish
      ({ st with pool := destroy_hash_clone st.pool msg.rhandle },
       some s,
       (Ev.engine .hashFinish ::
         (if s = PsaStatus.success then
           [Ev.write 0 (eng.outVal .hashFinish), Ev.write 1 (eng.outVal .hashFinish)]
         else [])) ++ [Ev.cloneDestroy msg.rhandle])
    else (st, some .errInsufficientMemory, [])
  | .hashVerify =>
    if eng.allocOk 0 then
      ({ st with pool := destroy_hash_clone st.pool msg.rhandle },
       some (eng.status .hashVerify),
       [Ev.engine .hashVerify, Ev.cloneDestroy msg.rhandle])
    else (st, some .errInsufficientMemory, [])
  | .hashAbort =>
    ({ st with pool := destroy_hash_clone st.pool msg.rhandle },
     some (eng.status .hashAbort),
     [Ev.engine .hashAbort, Ev.cloneDestroy msg.rhandle])
  | .hashCloneBegin =>
    let r := reserve_hash_clone st.pool msg.client_id msg.rhandle
    if r.1 = PsaStatus.success then
      ({ st with pool := r.2.2 }, some r.1, [Ev.write 0 r.2.1])
    else ({ st with pool := r.2.2 }, some r.1, [])
  | .hashCloneEnd =>
    let index := msg.inVal 1
    match get_hash_clone st.pool index msg.client_id with
    | none => (st, some .errBadState, [])
    | some _ =>
      ({ st with pool := st.pool.set index (release_hash_clone (slotAt st.pool index)) },
       some (eng.status .hashClone), [Ev.engine .hashClone])
  | _ => (st, some .errNotSupported, [])

def hash_on_disconnect (msg : Msg) (_eng : Engine) (st : GState) : HandlerResult :=
  match msg.rhandle with
  | none => (st, some .success, [Ev.engine .hashAbort])
  | some ctx =>
    ({ st with pool := destroy_hash_clone st.pool (some ctx) },
     some .success,
     [Ev.engine .hashAbort, Ev.cloneDestroy (some ctx), Ev.freeCtx ctx])

-- ---------------------------------------------------------------------------
-- Symmetric cipher handlers.
-- ---------------------------------------------------------------------------

def symmetric_on_connect (_msg : Msg) (eng : Engine) (st : GState) : HandlerResult :=
  if eng.allocOk 0 then (st, some .success, [Ev.allocCtx eng.newCtx])
  else (st, some .errInsufficientMemory, [])

def symmetric_on_call (msg : Msg) (eng : Engine) (st : GState) : HandlerResult :=
  let ipc := msg.ipc
  match ipc.func with
  | .cipherEncryptSetup =>
    if psa_crypto_access_control_is_handle_permitted st.acl ipc.handle msg.client_id then
      (st, some (eng.status .cipherEncryptSetup), [Ev.engine .cipherEncryptSetup])
    else (st, some .errInvalidHandle, [])
  | .cipherDecryptSetup =>
    if psa_crypto_access_control_is_handle_permitted st.acl ipc.handle msg.client_id then
      (st, some (eng.status .cipherDecryptSetup), [Ev.engine .cipherDecryptSetup])
    else (st, some .errInvalidHandle, [])
  | .cipherGenerateIv =>
    let s := eng.status .cipherGenerateIv
    (st, some s,
      Ev.engine .cipherGenerateIv ::
        (if s = PsaStatus.success then
          [Ev.write 0 (eng.outVal .cipherGenerateIv), Ev.write 1 (eng.outVal .cipherGenerateIv)]
        else []))
  | .cipherSetIv => (st, some (eng.status .cipherSetIv), [Ev.engine .cipherSetIv])
  | .cipherUpdate =>
    if eng.allocOk 0 then
      if eng.allocOk 1 then
        let s := eng.status .cipherUpdate
        (st, some s,
          Ev.engine .cipherUpdate ::
            (if s = PsaStatus.success then
              [Ev.write 0 (eng.outVal .cipherUpdate), Ev.write 1 (eng.outVal .cipherUpdate)]
            else []))
      else (st, some .errInsufficientMemory, [])
    else (st, some .errInsufficientMemory, [])
  | .cipherFinish =>
    if eng.allocOk 0 then
      let s := eng.status .cipherFinish
      (st, some s,
        Ev.engine .cipherFinish ::
          (if s = PsaStatus.success then
            [Ev.write 0 (eng.outVal .cipherFinish), Ev.write 1 (eng.outVal .cipherFinish)]
          else []))
    else (st, some .errInsufficientMemory, [])
  | .cipherAbort => (st, some (eng.status .cipherAbort), [Ev.engine .cipherAbort])
  | _ => (st, some .errNotSupported, [])

def symmetric_on_disconnect (msg : Msg) (_eng : Engine) (st : GState) : HandlerResult :=
  match msg.rhandle with
  | none => (st, some .success, [Ev.engine .cipherAbort])
  | some ctx => (st, some .success, [Ev.engine .cipherAbort, Ev.freeCtx ctx])

-- ---------------------------------------------------------------------------
-- Asymmetric handler (access-control check before the switch).
-- ---------------------------------------------------------------------------

def asymmetric_on_call (msg : Msg) (eng : Engine) (st : GState) : HandlerResult :=
  let ipc := msg.ipcAsym
  if psa_crypto_access_control_is_handle_permitted st.acl ipc.handle msg.client_id then
    match ipc.func with
    | .asymmetricSign =>
      if eng.allocOk 0 then
        if eng.allocOk 1 then
          let s := eng.status .asymmetricSign
          (st, some s,
            Ev.engine .asymmetricSign ::
              ((if s = PsaStatus.success then [Ev.write 0 (eng.outVal .asymmetricSign)] else []) ++
                [Ev.write 1 (if s = PsaStatus.success then eng.outVal .asymmetricSign else 0)]))
        else (st, some .errInsufficientMemory, [])
      else (st, some .errInsufficientMemory, [])
    | .asymmetricVerify =>
      if eng.allocOk 0 then
        if eng.allocOk 1 then
          (st, some (eng.status .asymmetricVerify), [Ev.engine .asymmetricVerify])
        else (st, some .errInsufficientMemory, [])
      else (st, some .errInsufficientMemory, [])
    | .asymmetricEncrypt =>
      if eng.allocOk 0 then
        if eng.allocOk 1 then
          let s := eng.status .asymmetricEncrypt
          (st, some s,
            Ev.engine .asymmetricEncrypt ::
              ((if s = PsaStatus.success then [Ev.write 0 (eng.outVal .asymmetricEncrypt)] else []) ++
                [Ev.write 1 (if s = PsaStatus.success then eng.outVal .asymmetricEncrypt else 0)]))
        else (st, some .errInsufficientMemory, [])
      else (st, some .errInsufficientMemory, [])
    | .asymmetricDecrypt =>
      if eng.allocOk 0 then
        if eng.allocOk 1 then
          let s := eng.status .asymmetricDecrypt
          (st, some s,
            Ev.engine .asymmetricDecrypt ::
              ((if s = PsaStatus.success then [Ev.write 0 (eng.outVal .asymmetricDecrypt)] else []) ++
                [Ev.write 1 (if s = PsaStatus.success then eng.outVal .asymmetricDecrypt else 0)]))
        else (st, some .errInsufficientMemory, [])
      else (st, some .errInsufficientMemory, [])
    | _ => (st, some .errNotSupported, [])
  else (st, some .errInvalidHandle, [])

-- ---------------------------------------------------------------------------
-- AEAD handler (access-control check before the switch).
-- ---------------------------------------------------------------------------

def aead_on_call (msg : Msg) (eng : Engine) (st : GState) : HandlerResult :=
  let ipc := msg.ipcAead
  if psa_crypto_access_control_is_handle_permitted st.acl ipc.handle msg.client_id then
    match ipc.func with
    | .aeadEncrypt =>
      if eng.allocOk 0 then
        if eng.allocOk 1 then
          let s := eng.status .aeadEncrypt
          (st, some s,
            Ev.engine .aeadEncrypt ::
              (if s = PsaStatus.success then
                [Ev.write 0 (eng.outVal .aeadEncrypt), Ev.write 1 (eng.outVal .aeadEncrypt)]
              else []))
        else (st, some .errInsufficientMemory, [])
      else (st, some .errInsufficientMemory, [])
    | .aeadDecrypt =>
      if eng.allocOk 0 then
        if eng.allocOk 1 then
          let s := eng.status .aeadDecrypt
          (st, some s,
            Ev.engine .aeadDecrypt ::
              (if s = PsaStatus.success then
                [Ev.write 0 (eng.outVal .aeadDecrypt), Ev.write 1 (eng.outVal .aeadDecrypt)]
              else []))
        else (st, some .errInsufficientMemory, [])
      else (st, some .errInsufficientMemory, [])
    | _ => (st, some .errNotSupported, [])
  else (st, some .errInvalidHandle, [])

-- ---------------------------------------------------------------------------
-- Entropy and RNG handlers (the entropy handler is modelled in its
-- MBEDTLS_ENTROPY_NV_SEED configuration).
-- ---------------------------------------------------------------------------

def entropy_on_call (msg : Msg) (eng : Engine) (st : GState) : HandlerResult :=
  let seed_size := msg.in_size 0
  if MBEDTLS_ENTROPY_MAX_SEED_SIZE < seed_size then
    (st, some .errInvalidArgument, [])
  else if eng.allocOk 0 then
    (st, some (eng.status .injectEntropy), [Ev.engine .injectEntropy])
  else (st, some .errInsufficientMemory, [])

def rng_on_call (_msg : Msg) (eng : Engine) (st : GState) : HandlerResult :=
  if eng.allocOk 0 then
    let s := eng.status .generateRandom
    (st, some s,
      Ev.engine .generateRandom ::
        (if s = PsaStatus.success then [Ev.write 0 (eng.outVal .generateRandom)] else []))
  else (st, some .errInsufficientMemory, [])

-- ---------------------------------------------------------------------------
-- Key management (replies on its own; a Call whose header size mismatches
-- is answered with COMMUNICATION_FAILURE before decoding).
-- ---------------------------------------------------------------------------

/-- The body of the PSA_IPC_CALL case of psa_key_management_operation:
the switch over sub-operation codes.  `none` models SPM_PANIC (the
key-id-size check of create/open). -/
def key_mng_call (msg : Msg) (eng : Engine) (st : GState) :
    Option (GState × PsaStatus × List Ev) :=
  let k := msg.ipcKeyMng
  let pid := msg.client_id
  let permitted := psa_crypto_access_control_is_handle_permitted st.acl k.handle pid
  match k.func with
  | .getKeyLifetime =>
    if permitted then
      let s := eng.status .getKeyLifetime
      some (st, s,
        Ev.engine .getKeyLifetime ::
          (if s = PsaStatus.success then [Ev.write 0 (eng.outVal .getKeyLifetime)] else []))
    else some (st, .errInvalidHandle, [])
  | .setKeyPolicy =>
    if permitted then
      some (st, eng.status .setKeyPolicy, [Ev.engine .setKeyPolicy])
    else some (st, .errInvalidHandle, [])
  | .getKeyPolicy =>
    if permitted then
      let s := eng.status .getKeyPolicy
      some (st, s,
        Ev.engine .getKeyPolicy ::
          (if s = PsaStatus.success then [Ev.write 0 (eng.outVal .getKeyPolicy)] else []))
    else some (st, .errInvalidHandle, [])
  | .importKey =>
    if permitted then
      if eng.allocOk 0 then
        some (st, eng.status .importKey, [Ev.engine .importKey])
      else some (st, .errInsufficientMemory, [])
    else some (st, .errInvalidHandle, [])
  | .destroyKey =>
    if permitted then
      let s := eng.status .destroyKey
      if s = PsaStatus.success then
        some ({ st with acl := psa_crypto_access_control_unregister_handle st.acl k.handle },
          s, [Ev.engine .destroyKey, Ev.aclUnregister k.handle])
      else some (st, s, [Ev.engine .destroyKey])
    else some (st, .errInvalidHandle, [])
  | .getKeyInformation =>
    let s := if permitted then eng.status .getKeyInformation else .errInvalidHandle
    let tval := if permitted then eng.keyType else 0
    let bval := if permitted then eng.keyBits else 0
    some (st, s,
      (if permitted then [Ev.engine .getKeyInformation] else []) ++
        (if sizeof_psa_key_type_t ≤ msg.out_size 0 then [Ev.write 0 tval] else []) ++
        (if sizeof_size_t ≤ msg.out_size 1 then [Ev.write 1 bval] else []))
  | .exportKey =>
    if permitted then
      if eng.allocOk 0 then
        let s := eng.status .exportKey
        some (st, s,
          Ev.engine .exportKey ::
            ((if s = PsaStatus.success then [Ev.write 0 (eng.outVal .exportKey)] else []) ++
              [Ev.write 1 (if s = PsaStatus.success then eng.outVal .exportKey else 0)]))
      else some (st, .errInsufficientMemory, [])
    else some (st, .errInvalidHandle, [])
  | .exportPublicKey =>
    if permitted then
      if eng.allocOk 0 then
        let s := eng.status .exportPublicKey
        some (st, s,
          Ev.engine .exportPublicKey ::
            ((if s = PsaStatus.success then [Ev.write 0 (eng.outVal .exportPublicKey)] else []) ++
              [Ev.write 1 (if s = PsaStatus.success then eng.outVal .exportPublicKey else 0)]))
      else some (st, .errInsufficientMemory, [])
    else some (st, .errInvalidHandle, [])
  | .generateKey =>
    if permitted then
      if k.ktype = PSA_KEY_TYPE_RSA_KEYPAIR ∧ msg.in_size 2 ≠ 0 then
        if eng.allocOk 0 then
          some (st, eng.status .generateKey, [Ev.engine .generateKey])
        else some (st, .errInsufficientMemory, [])
      else
        some (st, eng.status .generateKey, [Ev.engine .generateKey])
    else some (st, .errInvalidHandle, [])
  | .allocateKey =>
    let s := eng.status .allocateKey
    if s = PsaStatus.success then
      some ({ st with acl := psa_crypto_access_control_register_handle st.acl eng.newHandle pid },
        s, [Ev.engine .allocateKey, Ev.aclRegister eng.newHandle pid,
            Ev.write 0 eng.newHandle])
    else some (st, s, [Ev.engine .allocateKey])
  | .createKey =>
    if msg.in_size 1 ≠ CLIENT_PSA_KEY_ID_SIZE_IN_BYTES then none
    else
      let s := eng.status .createKey
      if s = PsaStatus.success then
        some ({ st with acl := psa_crypto_access_control_register_handle st.acl eng.newHandle pid },
          s, [Ev.engine .createKey, Ev.aclRegister eng.newHandle pid,
              Ev.write 0 eng.newHandle])
      else some (st, s, [Ev.engine .createKey])
  | .openKey =>
    if msg.in_size 1 ≠ CLIENT_PSA_KEY_ID_SIZE_IN_BYTES then none
    else
      let s := eng.status .openKey
      if s = PsaStatus.success then
        some ({ st with acl := psa_crypto_access_control_register_handle st.acl eng.newHandle pid },
          s, [Ev.engine .openKey, Ev.aclRegister eng.newHandle pid,
              Ev.write 0 eng.newHandle])
      else some (st, s, [Ev.engine .openKey])
  | .closeKey =>
    if permitted then
      let s := eng.status .closeKey
      if s = PsaStatus.success then
        some ({ st with acl := psa_crypto_access_control_unregister_handle st.acl k.handle },
          s, [Ev.engine .closeKey, Ev.aclUnregister k.handle])
      else some (st, s, [Ev.engine .closeKey])
    else some (st, .errInvalidHandle, [])
  | _ => some (st, .errNotSupported, [])

/-- psa_key_management_operation: decodes once per Call and sends exactly
one reply at the end; unexpected message types SPM_PANIC (`none`). -/
def psa_key_management_operation (msg : Msg) (eng : Engine) (st : GState) :
    Option (GState × List Ev) :=
  match msg.type with
  | .connect => some (st, [Ev.reply (some .success)])
  | .disconnect => some (st, [Ev.reply (some .success)])
  | .call =>
    if msg.in_size 0 ≠ sizeof_psa_key_mng_ipc_t then
      some (st, [Ev.reply (some .errCommunicationFailure)])
    else
      (key_mng_call msg eng st).map
        (fun r => (r.1, r.2.2 ++ [Ev.reply (some r.2.1)]))
  | .other _ => none

-- ---------------------------------------------------------------------------
-- Key derivation / agreement (the generator service; replies on its own).
-- ---------------------------------------------------------------------------

/-- The PSA_IPC_CALL switch of psa_crypto_generator_operations.  `none`
models SPM_PANIC (read-size checks of generator-import-key). -/
def generator_call (msg : Msg) (eng : Engine) (st : GState) :
    Option (GState × PsaStatus × List Ev) :=
  let k := msg.ipcDeriv
  match k.func with
  | .getGeneratorCapacity =>
    let s := eng.status .getGeneratorCapacity
    some (st, s,
      Ev.engine .getGeneratorCapacity ::
        (if s = PsaStatus.success then [Ev.write 0 (eng.outVal .getGeneratorCapacity)] else []))
  | .generatorRead =>
    if eng.allocOk 0 then
      let s := eng.status .generatorRead
      some (st, s,
        Ev.engine .generatorRead ::
          (if s = PsaStatus.success then [Ev.write 0 (eng.outVal .generatorRead)] else []))
    else some (st, .errInsufficientMemory, [])
  | .generatorImportKey =>
    if psa_crypto_access_control_is_handle_permitted st.acl k.handle msg.client_id then
      if msg.in_size 1 ≠ sizeof_psa_key_type_t then none
      else if msg.in_size 2 ≠ sizeof_size_t then none
      else some (st, eng.status .generatorImportKey, [Ev.engine .generatorImportKey])
    else some (st, .errInvalidHandle, [])
  | .generatorAbort =>
    some (st, eng.status .generatorAbort, [Ev.engine .generatorAbort])
  | .keyDerivation =>
    if psa_crypto_access_control_is_handle_permitted st.acl k.handle msg.client_id then
      if eng.allocOk 0 then
        if eng.allocOk 1 then
          some (st, eng.status .keyDerivation, [Ev.engine .keyDerivation])
        else some (st, .errInsufficientMemory, [])
      else some (st, .errInsufficientMemory, [])
    else some (st, .errInvalidHandle, [])
  | .keyAgreement =>
    if psa_crypto_access_control_is_handle_permitted st.acl k.handle msg.client_id then
      if eng.allocOk 0 then
        some (st, eng.status .keyAgreement, [Ev.engine .keyAgreement])
      else some (st, .errInsufficientMemory, [])
    else some (st, .errInvalidHandle, [])
  | _ => some (st, .errNotSupported, [])

/-- psa_crypto_generator_operations: allocates the generator context on
connect, frees it on disconnect after aborting it, replies exactly once. -/
def psa_crypto_generator_operations (msg : Msg) (eng : Engine) (st : GState) :
    Option (GState × List Ev) :=
  match msg.type with
  | .connect =>
    if eng.allocOk 0 then
      some (st, [Ev.allocCtx eng.newCtx, Ev.reply (some .success)])
    else some (st, [Ev.reply (some .errInsufficientMemory)])
  | .call =>
    if msg.in_size 0 ≠ sizeof_psa_crypto_derivation_ipc_t then
      some (st, [Ev.reply (some .errCommunicationFailure)])
    else
      (generator_call msg eng st).map
        (fun r => (r.1, r.2.2 ++ [Ev.reply (some r.2.1)]))
  | .disconnect =>
    match msg.rhandle with
    | none => some (st, [Ev.engine .generatorAbort, Ev.reply (some .success)])
    | some ctx =>
      some (st, [Ev.engine .generatorAbort, Ev.freeCtx ctx, Ev.reply (some .success)])
  | .other _ => none

-- ---------------------------------------------------------------------------
-- Generic message handler and the dispatch loop.
-- ---------------------------------------------------------------------------

/-- message_handler: route by message type to the connect/call/disconnect
handler (missing handlers leave the status PSA_SUCCESS), then send exactly
one reply; unexpected types SPM_PANIC (`none`). -/
def message_handler (conn call disc : Option Handler) (msg : Msg) (eng : Engine)
    (st : GState) : Option (GState × List Ev) :=
  match msg.type with
  | .connect =>
    match conn with
    | some h => let r := h msg eng st; some (r.1, r.2.2 ++ [Ev.reply r.2.1])
    | none => some (st, [Ev.reply (some .success)])
  | .call =>
    match call with
    | some h => let r := h msg eng st; some (r.1, r.2.2 ++ [Ev.reply r.2.1])
    | none => some (st, [Ev.reply (some .success)])
  | .disconnect =>
    match disc with
    | some h => let r := h msg eng st; some (r.1, r.2.2 ++ [Ev.reply r.2.1])
    | none => some (st, [Ev.reply (some .success)])
  | .other _ => none

/-- One signal's servicing in the body of crypto_main, with the handler
sets the source passes for each service kind. -/
def dispatchSignal (s : Sig) (msg : Msg) (eng : Engine) (st : GState) :
    Option (GState × List Ev) :=
  match s with
  | .init => message_handler none (some crypto_init_on_call) none msg eng st
  | .mac =>
    message_handler (some mac_on_connect) (some mac_on_call) (some mac_on_disconnect) msg eng st
  | .hash =>
    message_handler (some hash_on_connect) (some hash_on_call) (some hash_on_disconnect) msg eng st
  | .symmetric =>
    message_handler (some symmetric_on_connect) (some symmetric_on_call)
      (some symmetric_on_disconnect) msg eng st
  | .asymmetric => message_handler none (some asymmetric_on_call) none msg eng st
  | .aead => message_handler none (some aead_on_call) none msg eng st
  | .keyMng => psa_key_management_operation msg eng st
  | .rng => message_handler none (some rng_on_call) none msg eng st
  | .free => message_handler none (some crypto_free_on_call) none msg eng st
  | .generator => psa_crypto_generator_operations msg eng st
  | .entropy => message_handler none (some entropy_on_call) none msg eng st

/-- The fixed order in which one iteration of crypto_main checks the
signal bits. -/
def checkOrder : List Sig :=
  [.init, .mac, .hash, .symmetric, .asymmetric, .aead, .keyMng, .rng, .free,
   .generator, .entropy]

/-- The body of one while-iteration of crypto_main over a (suffix of the)
check order: an asserted signal whose psa_get fails executes `continue`,
abandoning the rest of the iteration; otherwise the signal is serviced and
its (signal, event-trace) segment recorded.  `none` models SPM_PANIC. -/
def iterationAux (asserted : Sig → Bool) (retrieve : Sig → Option Msg) (eng : Engine) :
    List Sig → GState → Option (GState × List (Sig × List Ev))
  | [], st => some (st, [])
  | s :: rest, st =>
    if asserted s then
      match retrieve s with
      | none => some (st, [])
      | some m =>
        match dispatchSignal s m eng st with
        | none => none
        | some (st1, evs) =>
          match iterationAux asserted retrieve eng rest st1 with
          | none => none
          | some (st2, segs) => some (st2, (s, evs) :: segs)
    else iterationAux asserted retrieve eng rest st

/-- One full iteration of the crypto_main dispatch loop. -/
def crypto_main_iteration (asserted : Sig → Bool) (retrieve : Sig → Option Msg)
    (eng : Engine) (st : GState) : Option (GState × List (Sig × List Ev)) :=
  iterationAux asserted retrieve eng checkOrder st

/-- The signals crypto_main would service this iteration: the asserted
signals in check order, cut short at the first one whose retrieval fails
(which is itself not serviced). -/
def expectedServiced (asserted : Sig → Bool) (retrieve : Sig → Option Msg) :
    List Sig → List Sig
  | [] => []
  | s :: rest =>
    if asserted s then
      match retrieve s with
      | none => []
      | some _ => s :: expectedServiced asserted retrieve rest
    else expectedServiced asserted retrieve rest

-- ---------------------------------------------------------------------------
-- Trace observers and pool predicates.
-- ---------------------------------------------------------------------------

/-- The Crypto Engine invocations among a trace's events. -/
def engineEvs (evs : List Ev) : List Ev :=
  evs.filter (fun e => match e with | .engine _ => true | _ => false)

/-- The statuses of the replies among a trace's events. -/
def replyStatuses (evs : List Ev) : List (Option PsaStatus) :=
  evs.filterMap (fun e => match e with | .reply s => some s | _ => none)

/-- The slot invariant of claim C9: a zero reference count exactly
characterizes the free sentinel fields. -/
def slotInv (s : Slot) : Prop :=
  s.ref_count = 0 ↔ (s.partition_id = 0 ∧ s.source_operation = none)

/-- The pool-wide invariant: every slot satisfies `slotInv`. -/
def poolInv (pool : List Slot) : Prop := ∀ s ∈ pool, slotInv s

/-- Number of slots referencing a given source operation context. -/
def ctxCount (ctx : Nat) (pool : List Slot) : Nat :=
  pool.countP (fun s => s.source_operation == some ctx)

/-- The connection-local pool invariant used for C6: at most one slot
references the connection's context, and any such slot belongs to the
connection's client. -/
def ctxOk (c : Int) (ctx : Nat) (pool : List Slot) : Prop :=
  ctxCount ctx pool ≤ 1 ∧
    ∀ s ∈ pool, s.source_operation = some ctx → s.partition_id = c

-- ---------------------------------------------------------------------------
-- Connection runs (Connect, zero or more Calls, Disconnect) for C6.
-- ---------------------------------------------------------------------------

def zeroCryptoIpc : CryptoIpc := ⟨.invalid, 0, 0⟩
def zeroAsymIpc : AsymIpc := ⟨.invalid, 0, 0, 0, 0⟩
def zeroAeadIpc : AeadIpc := ⟨.invalid, 0, 0, 0, 0, 0⟩
def zeroKeyMngIpc : KeyMngIpc := ⟨.invalid, 0, 0, 0⟩
def zeroDerivIpc : DerivIpc := ⟨.invalid, 0, 0, 0⟩

/-- A neutral message all concrete messages are built from. -/
def baseMsg : Msg :=
  { type := .call, client_id := 0, rhandle := none,
    in_size := fun _ => 0, out_size := fun _ => 0,
    ipc := zeroCryptoIpc, ipcAsym := zeroAsymIpc, ipcAead := zeroAeadIpc,
    ipcKeyMng := zeroKeyMngIpc, ipcDeriv := zeroDerivIpc, inVal := fun _ => 0 }

/-- One Call of a hash/MAC/cipher connection: its decoded header, declared
parameter sizes, read values and the engine oracle in effect for it. -/
structure CallReq where
  ipc : CryptoIpc
  inSize : Nat → Nat
  outSize : Nat → Nat
  inVal : Nat → Nat
  eng : Engine

def mkConnMsg (c : Int) : Msg := { baseMsg with type := .connect, client_id := c }

def mkCallMsg (c : Int) (ctx : Nat) (r : CallReq) : Msg :=
  { baseMsg with
    client_id := c, rhandle := some ctx,
    in_size := r.inSize, out_size := r.outSize, ipc := r.ipc, inVal := r.inVal }

def mkDiscMsg (c : Int) (rh : Option Nat) : Msg :=
  { baseMsg with type := .disconnect, client_id := c, rhandle := rh }

/-- Run a list of Call messages of one connection through a call handler,
concatenating the event traces. -/
def runCalls (h : Handler) (c : Int) (ctx : Nat) :
    List CallReq → GState → GState × List Ev
  | [], st => (st, [])
  | r :: rest, st =>
    let k := h (mkCallMsg c ctx r) r.eng st
    let t := runCalls h c ctx rest k.1
    (t.1, k.2.2 ++ t.2)

/-- A full hash connection: Connect (context allocation), the Calls, then
Disconnect. -/
def hash_connection (c : Int) (cEng : Engine) (calls : List CallReq) (dEng : Engine)
    (st : GState) : GState × List Ev :=
  let k := hash_on_connect (mkConnMsg c) cEng st
  if k.2.1 = some PsaStatus.success then
    let ctx := cEng.newCtx
    let t := runCalls hash_on_call c ctx calls k.1
    let d := hash_on_disconnect (mkDiscMsg c (some ctx)) dEng t.1
    (d.1, k.2.2 ++ (t.2 ++ d.2.2))
  else (k.1, k.2.2)

/-- A full MAC connection. -/
def mac_connection (c : Int) (cEng : Engine) (calls : List CallReq) (dEng : Engine)
    (st : GState) : GState × List Ev :=
  let k := mac_on_connect (mkConnMsg c) cEng st
  if k.2.1 = some PsaStatus.success then
    let ctx := cEng.newCtx
    let t := runCalls mac_on_call c ctx calls k.1
    let d := mac_on_disconnect (mkDiscMsg c (some ctx)) dEng t.1
    (d.1, k.2.2 ++ (t.2 ++ d.2.2))
  else (k.1, k.2.2)

/-- A full symmetric-cipher connection. -/
def symmetric_connection (c : Int) (cEng : Engine) (calls : List CallReq) (dEng : Engine)
    (st : GState) : GState × List Ev :=
  let k := symmetric_on_connect (mkConnMsg c) cEng st
  if k.2.1 = some PsaStatus.success then
    let ctx := cEng.newCtx
    let t := runCalls symmetric_on_call c ctx calls k.1
    let d := symmetric_on_disconnect (mkDiscMsg c (some ctx)) dEng t.1
    (d.1, k.2.2 ++ (t.2 ++ d.2.2))
  else (k.1, k.2.2)

-- ---------------------------------------------------------------------------
-- Iterated reservation (for exercising the uint8_t reference counter).
-- ---------------------------------------------------------------------------

/-- n successive reserve_hash_clone requests for the same pair. -/
def reserveIter (pid : Int) (src : Option Nat) : Nat → List Slot → List Slot
  | 0, pool => pool
  | n + 1, pool => reserveIter pid src n (reserve_hash_clone pool pid src).2.2

-- ---------------------------------------------------------------------------
-- Concrete inputs for witnesses and counterexamples.
-- ---------------------------------------------------------------------------

/-- An engine oracle on which every operation and allocation succeeds. -/
def engAll : Engine :=
  { status := fun _ => .success, updateStatus := fun _ => .success,
    allocOk := fun _ => true, newHandle := 5, newCtx := 7,
    keyType := 3, keyBits := 256, outVal := fun _ => 0 }

/-- An engine oracle on which every engine operation fails. -/
def engFail : Engine := { engAll with status := fun _ => .other (-9) }

/-- An empty two-slot pool (the MAX_CONCURRENT_HASH_CLONES default). -/
def pool2 : List Slot := [freeSlot, freeSlot]

/-- A fresh global state: counter 0, empty two-slot pool, empty registry. -/
def gs0 : GState := ⟨0, pool2, []⟩

/-- A hash-update Call of declared input length L. -/
def msgUpdHash (L : Nat) : Msg :=
  { baseMsg with
    ipc := ⟨.hashUpdate, 0, 0⟩,
    in_size := fun i => if i = 1 then L else sizeof_psa_crypto_ipc_t }

/-- A MAC-update Call of declared input length L. -/
def msgUpdMac (L : Nat) : Msg :=
  { baseMsg with
    ipc := ⟨.macUpdate, 0, 0⟩,
    in_size := fun i => if i = 1 then L else sizeof_psa_crypto_ipc_t }

/-- A MAC sign-setup Call naming handle 9 from client 1 (witness input). -/
def msgMacSetup : Msg :=
  { baseMsg with
    client_id := 1, ipc := ⟨.macSignSetup, 9, 0⟩,
    in_size := fun _ => sizeof_psa_crypto_ipc_t }

/-- A key-management allocate Call from client 4 (witness input). -/
def msgKmAlloc : Msg :=
  { baseMsg with
    client_id := 4,
    ipcKeyMng := ⟨.allocateKey, 0, 0, 0⟩,
    in_size := fun _ => sizeof_psa_key_mng_ipc_t }

/-- A key-management close Call on handle 5 from client 4 (witness input). -/
def msgKmClose : Msg :=
  { baseMsg with
    client_id := 4,
    ipcKeyMng := ⟨.closeKey, 5, 0, 0⟩,
    in_size := fun _ => sizeof_psa_key_mng_ipc_t }

/-- A key-management get-key-information Call on handle 5 from client 4
with roomy output parameters (witness input). -/
def msgKmInfo : Msg :=
  { baseMsg with
    client_id := 4,
    ipcKeyMng := ⟨.getKeyInformation, 5, 0, 0⟩,
    in_size := fun _ => sizeof_psa_key_mng_ipc_t,
    out_size := fun i => if i = 0 then sizeof_psa_key_type_t else sizeof_size_t }

/-- A MAC-service Call whose declared input-parameter-0 length (0) differs
from the fixed header size: the MAC handler performs no header-size check,
so the zero-initialized header decodes to the unrecognized code. -/
def msgC7 : Msg := { baseMsg with in_size := fun _ => 0 }

/-- Signal set asserting only crypto-init and MAC. -/
def assertedIM : Sig → Bool
  | .init => true
  | .mac => true
  | _ => false

/-- Retrieval oracle: the asserted init signal's psa_get fails, the MAC
signal's psa_get yields a connect message. -/
def retrieveIM : Sig → Option Msg
  | .mac => some (mkConnMsg 1)
  | _ => none

/-- Signal set asserting only MAC (witness input for the dispatch loop). -/
def assertedM : Sig → Bool
  | .mac => true
  | _ => false

/-- Retrieval oracle delivering a MAC connect message (witness input). -/
def retrieveM : Sig → Option Msg
  | .mac => some (mkConnMsg 1)
  | _ => none

instance slotInv_dec (s : Slot) : Decidable (slotInv s) := by
  unfold slotInv
  infer_instance

instance poolInv_dec (pool : List Slot) : Decidable (poolInv pool) := by
  unfold poolInv
  infer_instance

instance ctxOk_dec (c : Int) (ctx : Nat) (pool : List Slot) : Decidable (ctxOk c ctx pool) := by
  unfold ctxOk
  infer_instance

/-- No reply event among the events of an optional sub-operation result
(replies are appended once by the surrounding operation). -/
def noReplyTriple : Option (GState × PsaStatus × List Ev) → Prop
  | none => True
  | some r => replyStatuses r.2.2 = []

/-- A pool with one live slot (witness input). -/
def poolLive : List Slot := [⟨1, some 5, 2⟩, freeSlot]

/-- A fully live two-slot pool (witness input). -/
def poolFull : List Slot := [⟨1, some 5, 1⟩, ⟨2, some 6, 1⟩]

-- === end of definitions ===

-- ---------------------------------------------------------------------------
-- Helper lemmas: trace observers.
-- ---------------------------------------------------------------------------

@[simp] theorem replyStatuses_nil : replyStatuses [] = [] := rfl

@[simp] theorem replyStatuses_cons_engine (op : EngineOp) (evs : List Ev) :
    replyStatuses (Ev.engine op :: evs) = replyStatuses evs := rfl

@[simp] theorem replyStatuses_cons_write (i v : Nat) (evs : List Ev) :
    replyStatuses (Ev.write i v :: evs) = replyStatuses evs := rfl

@[simp] theorem replyStatuses_cons_reply (s : Option PsaStatus) (evs : List Ev) :
    replyStatuses (Ev.reply s :: evs) = s :: replyStatuses evs := rfl

@[simp] theorem replyStatuses_cons_allocCtx (c : Nat) (evs : List Ev) :
    replyStatuses (Ev.allocCtx c :: evs) = replyStatuses evs := rfl

@[simp] theorem replyStatuses_cons_freeCtx (c : Nat) (evs : List Ev) :
    replyStatuses (Ev.freeCtx c :: evs) = replyStatuses evs := rfl

@[simp] theorem replyStatuses_cons_cloneDestroy (c : Option Nat) (evs : List Ev) :
    replyStatuses (Ev.cloneDestroy c :: evs) = replyStatuses evs := rfl

@[simp] theorem replyStatuses_cons_aclRegister (h : Nat) (p : Int) (evs : List Ev) :
    replyStatuses (Ev.aclRegister h p :: evs) = replyStatuses evs := rfl

@[simp] theorem replyStatuses_cons_aclUnregister (h : Nat) (evs : List Ev) :
    replyStatuses (Ev.aclUnregister h :: evs) = replyStatuses evs := rfl

@[simp] theorem replyStatuses_cons_aclInit (evs : List Ev) :
    replyStatuses (Ev.aclInit :: evs) = replyStatuses evs := rfl

@[simp] theorem replyStatuses_cons_aclDestroy (evs : List Ev) :
    replyStatuses (Ev.aclDestroy :: evs) = replyStatuses evs := rfl

@[simp] theorem replyStatuses_cons_poolReset (evs : List Ev) :
    replyStatuses (Ev.poolReset :: evs) = replyStatuses evs := rfl

@[simp] theorem replyStatuses_append (a b : List Ev) :
    replyStatuses (a ++ b) = replyStatuses a ++ replyStatuses b := by
  simp [replyStatuses]

@[simp] theorem engineEvs_nil : engineEvs [] = [] := rfl

@[simp] theorem engineEvs_cons_engine (op : EngineOp) (evs : List Ev) :
    engineEvs (Ev.engine op :: evs) = Ev.engine op :: engineEvs evs := rfl

@[simp] theorem engineEvs_cons_write (i v : Nat) (evs : List Ev) :
    engineEvs (Ev.write i v :: evs) = engineEvs evs := rfl

@[simp] theorem engineEvs_cons_reply (s : Option PsaStatus) (evs : List Ev) :
    engineEvs (Ev.reply s :: evs) = engineEvs evs := rfl

@[simp] theorem engineEvs_cons_allocCtx (c : Nat) (evs : List Ev) :
    engineEvs (Ev.allocCtx c :: evs) = engineEvs evs := rfl

@[simp] theorem engineEvs_cons_freeCtx (c : Nat) (evs : List Ev) :
    engineEvs (Ev.freeCtx c :: evs) = engineEvs evs := rfl

@[simp] theorem engineEvs_cons_cloneDestroy (c : Option Nat) (evs : List Ev) :
    engineEvs (Ev.cloneDestroy c :: evs) = engineEvs evs := rfl

@[simp] theorem engineEvs_cons_aclRegister (h : Nat) (p : Int) (evs : List Ev) :
    engineEvs (Ev.aclRegister h p :: evs) = engineEvs evs := rfl

@[simp] theorem engineEvs_cons_aclUnregister (h : Nat) (evs : List Ev) :
    engineEvs (Ev.aclUnregister h :: evs) = engineEvs evs := rfl

@[simp] theorem engineEvs_append (a b : List Ev) :
    engineEvs (a ++ b) = engineEvs a ++ engineEvs b := by
  simp [engineEvs]

-- ---------------------------------------------------------------------------
-- Helper lemmas: slot access and the pool searches.
-- ---------------------------------------------------------------------------

@[simp] theorem slotAt_cons_zero (s : Slot) (rest : List Slot) :
    slotAt (s :: rest) 0 = s := rfl

@[simp] theorem slotAt_cons_succ (s : Slot) (rest : List Slot) (i : Nat) :
    slotAt (s :: rest) (i + 1) = slotAt rest i := by
  simp [slotAt]

theorem slotAt_mem : ∀ (pool : List Slot) (i : Nat), i < pool.length →
    slotAt pool i ∈ pool
  | s :: rest, 0, _ => List.mem_cons_self s rest
  | s :: rest, i + 1, h =>
    List.mem_cons_of_mem s (slotAt_mem rest i (by simpa using h))

theorem slotAt_set_self : ∀ (pool : List Slot) (i : Nat) (x : Slot),
    i < pool.length → slotAt (pool.set i x) i = x
  | _ :: _, 0, _, _ => rfl
  | s :: rest, i + 1, x, h => by
    simpa using slotAt_set_self rest i x (by simpa using h)

theorem slotAt_set_ne : ∀ (pool : List Slot) (i j : Nat) (x : Slot),
    i ≠ j → slotAt (pool.set i x) j = slotAt pool j
  | [], _, _, _, _ => rfl
  | s :: rest, 0, 0, x, h => absurd rfl h
  | s :: rest, 0, j + 1, x, _ => by simp
  | s :: rest, i + 1, 0, x, _ => by simp
  | s :: rest, i + 1, j + 1, x, h => by
    simpa using slotAt_set_ne rest i j x (by omega)

theorem findPairIdx_eq_none (pid : Int) (src : Option Nat) :
    ∀ pool : List Slot, findPairIdx pid src pool = none ↔
      ∀ s ∈ pool, ¬(s.partition_id = pid ∧ s.source_operation = src)
  | [] => by simp [findPairIdx]
  | s :: rest => by
    by_cases hs : s.partition_id = pid ∧ s.source_operation = src
    · simp [findPairIdx, hs]
    · rw [findPairIdx, if_neg hs]
      simp only [Option.map_eq_none', findPairIdx_eq_none pid src rest]
      constructor
      · intro h s' hm
        rcases List.mem_cons.mp hm with rfl | hm2
        · exact hs
        · exact h s' hm2
      · intro h s' hm
        exact h s' (List.mem_cons_of_mem _ hm)

theorem findPairIdx_spec (pid : Int) (src : Option Nat) :
    ∀ (pool : List Slot) (i : Nat), findPairIdx pid src pool = some i →
      i < pool.length ∧ (slotAt pool i).partition_id = pid ∧
        (slotAt pool i).source_operation = src := by
  intro pool
  induction pool with
  | nil => intro i h; simp [findPairIdx] at h
  | cons s rest ih =>
    intro i h
    by_cases hs : s.partition_id = pid ∧ s.source_operation = src
    · simp [findPairIdx, hs] at h
      subst h
      exact ⟨by simp, hs.1, hs.2⟩
    · simp [findPairIdx, hs] at h
      obtain ⟨j, hj, rfl⟩ := h
      obtain ⟨h1, h2, h3⟩ := ih j hj
      exact ⟨by simpa using h1, by simpa using h2, by simpa using h3⟩

theorem findFreeIdx_eq_none :
    ∀ pool : List Slot, findFreeIdx pool = none ↔
      ∀ s ∈ pool, ¬(s.partition_id = 0 ∧ s.source_operation = none)
  | [] => by simp [findFreeIdx]
  | s :: rest => by
    by_cases hs : s.partition_id = 0 ∧ s.source_operation = none
    · simp [findFreeIdx, hs]
    · rw [findFreeIdx, if_neg hs]
      simp only [Option.map_eq_none', findFreeIdx_eq_none rest]
      constructor
      · intro h s' hm
        rcases List.mem_cons.mp hm with rfl | hm2
        · exact hs
        · exact h s' hm2
      · intro h s' hm
        exact h s' (List.mem_cons_of_mem _ hm)

theorem findFreeIdx_spec :
    ∀ (pool : List Slot) (i : Nat), findFreeIdx pool = some i →
      i < pool.length ∧ (slotAt pool i).partition_id = 0 ∧
        (slotAt pool i).source_operation = none := by
  intro pool
  induction pool with
  | nil => intro i h; simp [findFreeIdx] at h
  | cons s rest ih =>
    intro i h
    by_cases hs : s.partition_id = 0 ∧ s.source_operation = none
    · simp [findFreeIdx, hs] at h
      subst h
      exact ⟨by simp, hs.1, hs.2⟩
    · simp [findFreeIdx, hs] at h
      obtain ⟨j, hj, rfl⟩ := h
      obtain ⟨h1, h2, h3⟩ := ih j hj
      exact ⟨by simpa using h1, by simpa using h2, by simpa using h3⟩

theorem findPairIdx_set_of_none (pid : Int) (src : Option Nat) :
    ∀ (pool : List Slot) (i : Nat) (x : Slot),
      findPairIdx pid src pool = none → i < pool.length →
      findPairIdx pid src (pool.set i x) =
        if x.partition_id = pid ∧ x.source_operation = src then some i else none := by
  intro pool
  induction pool with
  | nil => intro i x _ hi; simp at hi
  | cons s rest ih =>
    intro i x hnone hi
    have hs : ¬(s.partition_id = pid ∧ s.source_operation = src) := by
      intro hc
      simp [findPairIdx, hc] at hnone
    have hrest : findPairIdx pid src rest = none := by
      by_cases hr : findPairIdx pid src rest = none
      · exact hr
      · exfalso
        obtain ⟨j, hj⟩ := Option.ne_none_iff_exists'.mp hr
        simp [findPairIdx, hs, hj] at hnone
    match i with
    | 0 =>
      simp only [List.set]
      by_cases hx : x.partition_id = pid ∧ x.source_operation = src
      · simp [findPairIdx, hx]
      · simp [findPairIdx, hx, hrest]
    | i + 1 =>
      simp only [List.set]
      rw [findPairIdx, if_neg hs, ih i x hrest (by simpa using hi)]
      by_cases hx : x.partition_id = pid ∧ x.source_operation = src
      · simp [hx]
      · simp [hx]


-- ---------------------------------------------------------------------------
-- C4: clone pool reserve / release algebra.
-- ---------------------------------------------------------------------------

/-- C4: on an invariant pool where the (caller, source) pair is not yet
live and a free slot exists at the first free index, reserving the pair
twice returns the same slot index with its reference count raised to 2;
resolving that slot once (a successful get_hash_clone followed by
release_hash_clone) drops the count to 1 with the slot still live; and a
reservation for a fresh pair while every slot of the pool is live fails
with BAD_STATE, leaving every slot unchanged. -/
theorem C4_clone_pool_reserve_release :
    (∀ (pool : List Slot) (pid : Int) (src : Option Nat) (i : Nat),
      pid ≠ 0 → src ≠ none → poolInv pool →
      findPairIdx pid src pool = none → findFreeIdx pool = some i →
      reserve_hash_clone pool pid src =
        (.success, i, pool.set i ⟨pid, src, 1⟩) ∧
      reserve_hash_clone (pool.set i ⟨pid, src, 1⟩) pid src =
        (.success, i, (pool.set i ⟨pid, src, 1⟩).set i ⟨pid, src, 2⟩) ∧
      get_hash_clone ((pool.set i ⟨pid, src, 1⟩).set i ⟨pid, src, 2⟩) i pid =
        some ⟨pid, src, 2⟩ ∧
      release_hash_clone ⟨pid, src, 2⟩ = ⟨pid, src, 1⟩) ∧
    (∀ (pool : List Slot) (pid : Int) (src : Option Nat),
      (∀ s ∈ pool, s.ref_count ≠ 0) → poolInv pool →
      findPairIdx pid src pool = none →
      reserve_hash_clone pool pid src = (.errBadState, pool.length, pool)) := by
  constructor
  · intro pool pid src i hpid hsrc hinv hnone hfree
    obtain ⟨hi, hp0, hs0⟩ := findFreeIdx_spec pool i hfree
    have hrc : (slotAt pool i).ref_count = 0 :=
      (hinv _ (slotAt_mem pool i hi)).mpr ⟨hp0, hs0⟩
    have step1 : reserve_hash_clone pool pid src =
        (.success, i, pool.set i ⟨pid, src, 1⟩) := by
      simp only [reserve_hash_clone, hnone, hfree, hrc]
    refine ⟨step1, ?_, ?_, ?_⟩
    · have hfind2 : findPairIdx pid src (pool.set i ⟨pid, src, 1⟩) = some i := by
        rw [findPairIdx_set_of_none pid src pool i _ hnone hi]
        simp
      have hslot2 : slotAt (pool.set i ⟨pid, src, 1⟩) i = ⟨pid, src, 1⟩ :=
        slotAt_set_self pool i _ hi
      simp only [reserve_hash_clone, hfind2, hslot2]
    · have hslot3 : slotAt ((pool.set i ⟨pid, src, 1⟩).set i ⟨pid, src, 2⟩) i =
          ⟨pid, src, 2⟩ :=
        slotAt_set_self _ i _ (by simpa using hi)
      simp only [get_hash_clone, List.length_set, hslot3]
      rw [if_neg (by omega), if_neg (by simp), if_neg (by simpa using hsrc)]
    · simp only [release_hash_clone]
      norm_num
  · intro pool pid src hlive hinv hnone
    have hfree : findFreeIdx pool = none := by
      rw [findFreeIdx_eq_none]
      intro s hs hc
      exact hlive s hs ((hinv s hs).mpr hc)
    simp only [reserve_hash_clone, hnone, hfree]

/-- Witness for C4 on the default empty two-slot pool and on a fully live
pool. -/
theorem C4_witness :
    (reserve_hash_clone pool2 1 (some 5) =
      (.success, 0, pool2.set 0 ⟨1, some 5, 1⟩) ∧
     reserve_hash_clone (pool2.set 0 ⟨1, some 5, 1⟩) 1 (some 5) =
      (.success, 0, (pool2.set 0 ⟨1, some 5, 1⟩).set 0 ⟨1, some 5, 2⟩) ∧
     get_hash_clone ((pool2.set 0 ⟨1, some 5, 1⟩).set 0 ⟨1, some 5, 2⟩) 0 1 =
      some ⟨1, some 5, 2⟩ ∧
     release_hash_clone ⟨1, some 5, 2⟩ = ⟨1, some 5, 1⟩) ∧
    reserve_hash_clone poolFull 3 (some 7) = (.errBadState, poolFull.length, poolFull) :=
  ⟨C4_clone_pool_reserve_release.1 pool2 1 (some 5) 0 (by decide) (by decide)
      (by decide) (by decide) (by decide),
   C4_clone_pool_reserve_release.2 poolFull 3 (some 7) (by decide) (by decide)
      (by decide)⟩

-- ---------------------------------------------------------------------------
-- C9: the free-slot invariant of the pool.
-- ---------------------------------------------------------------------------

/-- C9 (amended): every pool operation preserves the invariant that a slot
has reference count 0 exactly when it carries the free sentinel fields,
provided reserve is invoked with a non-zero caller and non-null source AND
no slot's uint8_t reference count is saturated (at most 254); release (as
the code invokes it, on a slot that passed get_hash_clone, hence with a
non-null source) and destroy preserve it unconditionally; and a slot whose
count reaches 0 is reset to exactly the free sentinel reserve matches. -/
theorem C9_amended_pool_invariant :
    (∀ (pool : List Slot) (pid : Int) (src : Option Nat),
      pid ≠ 0 → src ≠ none → (∀ s ∈ pool, s.ref_count ≤ 254) → poolInv pool →
      poolInv (reserve_hash_clone pool pid src).2.2) ∧
    (∀ (pool : List Slot) (i : Nat),
      poolInv pool → i < pool.length → (slotAt pool i).source_operation ≠ none →
      poolInv (pool.set i (release_hash_clone (slotAt pool i)))) ∧
    (∀ (pool : List Slot) (src : Option Nat),
      poolInv pool → poolInv (destroy_hash_clone pool src)) ∧
    (∀ s : Slot, s.ref_count = 1 → release_hash_clone s = freeSlot) := by
  refine ⟨?_, ?_, ?_, ?_⟩
  · intro pool pid src hpid hsrc hbound hinv
    unfold reserve_hash_clone
    cases hm : findPairIdx pid src pool with
    | some i =>
      obtain ⟨hi, hp, hs⟩ := findPairIdx_spec pid src pool i hm
      have hmem := slotAt_mem pool i hi
      have hrcne : (slotAt pool i).ref_count ≠ 0 := by
        intro h0
        exact hpid (hp ▸ ((hinv _ hmem).mp h0).1)
      have hb := hbound _ hmem
      intro s' hs'
      rcases List.mem_or_eq_of_mem_set hs' with hold | rfl
      · exact hinv s' hold
      · constructor
        · intro hz
          have hz2 : ((slotAt pool i).ref_count + 1) % 256 = 0 := hz
          omega
        · intro hz
          have hz1 : (slotAt pool i).partition_id = 0 := hz.1
          exact absurd (hp ▸ hz1) hpid
    | none =>
      cases hf : findFreeIdx pool with
      | some i =>
        obtain ⟨hi, hp, hs⟩ := findFreeIdx_spec pool i hf
        have hrc : (slotAt pool i).ref_count = 0 :=
          (hinv _ (slotAt_mem pool i hi)).mpr ⟨hp, hs⟩
        intro s' hs'
        rcases List.mem_or_eq_of_mem_set hs' with hold | rfl
        · exact hinv s' hold
        · constructor
          · intro hz
            have hz2 : ((slotAt pool i).ref_count + 1) % 256 = 0 := hz
            omega
          · intro hz
            have hz1 : pid = 0 := hz.1
            exact absurd hz1 hpid
      | none => exact hinv
  · intro pool i hinv hi hsrc
    intro s' hs'
    rcases List.mem_or_eq_of_mem_set hs' with hold | rfl
    · exact hinv s' hold
    · have hmem := slotAt_mem pool i hi
      have hrcne : (slotAt pool i).ref_count ≠ 0 := by
        intro h0
        exact hsrc ((hinv _ hmem).mp h0).2
      simp only [release_hash_clone]
      by_cases hz : ((slotAt pool i).ref_count + 255) % 256 = 0
      · rw [if_pos hz]
        simp [slotInv, freeSlot]
      · rw [if_neg hz]
        constructor
        · intro h
          have h2 : ((slotAt pool i).ref_count + 255) % 256 = 0 := h
          exact absurd h2 hz
        · intro h
          have h2 : (slotAt pool i).source_operation = none := h.2
          exact absurd h2 hsrc
  · intro pool src hinv
    unfold destroy_hash_clone
    cases hm : destroy_hash_clone.findPairIdx' src pool with
    | some i =>
      intro s' hs'
      rcases List.mem_or_eq_of_mem_set hs' with hold | rfl
      · exact hinv s' hold
      · simp [slotInv, freeSlot]
    | none => exact hinv
  · intro s h1
    simp [release_hash_clone, h1]

set_option maxRecDepth 4000 in
/-- Counterexample for C9: the reference count is a uint8_t, so the 256th
reservation of the same (non-zero caller, non-null source) pair wraps it
to 0 while the slot keeps its owner, violating the claimed invariant. -/
theorem C9_counterexample :
    poolInv pool2 ∧ (1 : Int) ≠ 0 ∧ (some 1 : Option Nat) ≠ none ∧
    ¬ poolInv (reserveIter 1 (some 1) 256 pool2) := by decide

/-- Witness for C9 on concrete pools. -/
theorem C9_witness :
    poolInv (reserve_hash_clone pool2 1 (some 5)).2.2 ∧
    poolInv (poolLive.set 0 (release_hash_clone (slotAt poolLive 0))) ∧
    poolInv (destroy_hash_clone poolLive (some 5)) ∧
    release_hash_clone ⟨1, some 5, 1⟩ = freeSlot :=
  ⟨C9_amended_pool_invariant.1 pool2 1 (some 5) (by decide) (by decide)
      (by decide) (by decide),
   C9_amended_pool_invariant.2.1 poolLive 0 (by decide) (by decide) (by decide),
   C9_amended_pool_invariant.2.2.1 poolLive (some 5) (by decide),
   C9_amended_pool_invariant.2.2.2 ⟨1, some 5, 1⟩ rfl⟩

-- ---------------------------------------------------------------------------
-- C3: chunked transfer.
-- ---------------------------------------------------------------------------

theorem chunkSizes_zero : chunkSizes 0 = [] := by
  rw [chunkSizes]
  simp

theorem chunkSizes_pos (L : Nat) (h : L ≠ 0) :
    chunkSizes L = min L MAX_DATA_CHUNK_SIZE_IN_BYTES ::
      chunkSizes (L - min L MAX_DATA_CHUNK_SIZE_IN_BYTES) := by
  conv_lhs => rw [chunkSizes]
  rw [if_neg h]

theorem chunk_sub_lt (L : Nat) (h : L ≠ 0) :
    L - min L MAX_DATA_CHUNK_SIZE_IN_BYTES < L := by
  simp only [MAX_DATA_CHUNK_SIZE_IN_BYTES]
  omega

theorem chunkSizes_sum (L : Nat) : (chunkSizes L).sum = L := by
  induction L using Nat.strong_induction_on with
  | _ L ih =>
    by_cases h : L = 0
    · subst h; rw [chunkSizes_zero]; rfl
    · rw [chunkSizes_pos L h, List.sum_cons, ih _ (chunk_sub_lt L h)]
      simp only [MAX_DATA_CHUNK_SIZE_IN_BYTES]
      omega

theorem chunkSizes_length (L : Nat) :
    (chunkSizes L).length =
      (L + MAX_DATA_CHUNK_SIZE_IN_BYTES - 1) / MAX_DATA_CHUNK_SIZE_IN_BYTES := by
  induction L using Nat.strong_induction_on with
  | _ L ih =>
    by_cases h : L = 0
    · subst h; rw [chunkSizes_zero]; rfl
    · rw [chunkSizes_pos L h, List.length_cons, ih _ (chunk_sub_lt L h)]
      simp only [MAX_DATA_CHUNK_SIZE_IN_BYTES]
      omega

theorem chunkSizes_getD (L i : Nat) :
    (chunkSizes L).getD i 0 =
      min (L - ((chunkSizes L).take i).sum) MAX_DATA_CHUNK_SIZE_IN_BYTES := by
  induction L using Nat.strong_induction_on generalizing i with
  | _ L ih =>
    by_cases h : L = 0
    · subst h
      rw [chunkSizes_zero]
      simp
    · rw [chunkSizes_pos L h]
      match i with
      | 0 => simp
      | i + 1 =>
        rw [List.getD_cons_succ, List.take_succ_cons, List.sum_cons,
          ih _ (chunk_sub_lt L h) i]
        have hle : min L MAX_DATA_CHUNK_SIZE_IN_BYTES ≤ L := Nat.min_le_left _ _
        congr 1
        omega

theorem updateLoop_zero (upd : Nat → PsaStatus) (mk : Nat → EngineOp) (i : Nat) :
    updateLoop upd mk 0 i = (none, []) := by
  rw [updateLoop]
  simp

theorem updateLoop_pos (upd : Nat → PsaStatus) (mk : Nat → EngineOp) (L i : Nat)
    (h : L ≠ 0) :
    updateLoop upd mk L i =
      if upd i = PsaStatus.success then
        (some ((updateLoop upd mk (L - min L MAX_DATA_CHUNK_SIZE_IN_BYTES) (i + 1)).1.getD
            (upd i)),
         Ev.engine (mk (min L MAX_DATA_CHUNK_SIZE_IN_BYTES)) ::
           (updateLoop upd mk (L - min L MAX_DATA_CHUNK_SIZE_IN_BYTES) (i + 1)).2)
      else (some (upd i), [Ev.engine (mk (min L MAX_DATA_CHUNK_SIZE_IN_BYTES))]) := by
  conv_lhs => rw [updateLoop]
  rw [if_neg h]

theorem updateLoop_success (upd : Nat → PsaStatus) (mk : Nat → EngineOp)
    (hupd : ∀ j, upd j = PsaStatus.success) (L i : Nat) :
    updateLoop upd mk L i =
      ((if L = 0 then none else some PsaStatus.success),
       (chunkSizes L).map (fun sz => Ev.engine (mk sz))) := by
  induction L using Nat.strong_induction_on generalizing i with
  | _ L ih =>
    by_cases h : L = 0
    · subst h
      rw [updateLoop_zero, chunkSizes_zero]
      simp
    · rw [updateLoop_pos upd mk L i h, if_pos (hupd i),
        ih _ (chunk_sub_lt L h) (i + 1), chunkSizes_pos L h]
      by_cases h2 : L - min L MAX_DATA_CHUNK_SIZE_IN_BYTES = 0
      · simp [h2, h, hupd i]
      · simp [h2, h, hupd i]

/-- C3: a hash-update or MAC-update Call of declared length L performs
ceil(L/400) update-sink invocations, the i-th of size
min(remaining, 400), summing exactly to L — but for L = 0 the handler's
status variable is never assigned (the C local is returned uninitialized,
modelled as `none`), NOT the claimed success. -/
theorem C3_chunked_update (L : Nat) :
    (hash_on_call (msgUpdHash L) engAll gs0).2.2 =
      (chunkSizes L).map (fun sz => Ev.engine (EngineOp.hashUpdate sz)) ∧
    (mac_on_call (msgUpdMac L) engAll gs0).2.2 =
      (chunkSizes L).map (fun sz => Ev.engine (EngineOp.macUpdate sz)) ∧
    (chunkSizes L).length =
      (L + MAX_DATA_CHUNK_SIZE_IN_BYTES - 1) / MAX_DATA_CHUNK_SIZE_IN_BYTES ∧
    (chunkSizes L).sum = L ∧
    (∀ i, (chunkSizes L).getD i 0 =
      min (L - ((chunkSizes L).take i).sum) MAX_DATA_CHUNK_SIZE_IN_BYTES) ∧
    (hash_on_call (msgUpdHash L) engAll gs0).2.1 =
      (if L = 0 then none else some PsaStatus.success) ∧
    (mac_on_call (msgUpdMac L) engAll gs0).2.1 =
      (if L = 0 then none else some PsaStatus.success) := by
  have hloopH := updateLoop_success engAll.updateStatus EngineOp.hashUpdate
    (fun _ => rfl) L 0
  have hloopM := updateLoop_success engAll.updateStatus EngineOp.macUpdate
    (fun _ => rfl) L 0
  have hh : hash_on_call (msgUpdHash L) engAll gs0 =
      (gs0, (updateLoop engAll.updateStatus EngineOp.hashUpdate L 0).1,
        (updateLoop engAll.updateStatus EngineOp.hashUpdate L 0).2) := by
    simp [hash_on_call, msgUpdHash, baseMsg, engAll]
  have hm : mac_on_call (msgUpdMac L) engAll gs0 =
      (gs0, (updateLoop engAll.updateStatus EngineOp.macUpdate L 0).1,
        (updateLoop engAll.updateStatus EngineOp.macUpdate L 0).2) := by
    simp [mac_on_call, msgUpdMac, baseMsg, engAll]
  refine ⟨?_, ?_, chunkSizes_length L, chunkSizes_sum L, chunkSizes_getD L, ?_, ?_⟩
  · rw [hh, hloopH]
  · rw [hm, hloopM]
  · rw [hh, hloopH]
  · rw [hm, hloopM]

-- ---------------------------------------------------------------------------
-- C5: crypto lifecycle reference counting.
-- ---------------------------------------------------------------------------

/-- C5 (amended): the init handler invokes the engine's initialization on
EVERY init request (the engine ref-counts internally); only the
service-local structures (clone pool, registry) are reset exactly on the
0-to-1 transition; the free handler decrements the counter (floored at 0)
and performs teardown (pool reset, registry destroy, engine free) exactly
when the resulting counter is 0 — that is, on the 1-to-0 transition and
also on any free request arriving at counter 0. -/
theorem C5_amended_lifecycle :
    (∀ (msg : Msg) (eng : Engine) (st : GState),
      (crypto_init_on_call msg eng st).2.2.count (Ev.engine .cryptoInit) = 1 ∧
      (eng.status .cryptoInit = PsaStatus.success →
        (crypto_init_on_call msg eng st).1.refCounter = st.refCounter + 1) ∧
      (eng.status .cryptoInit ≠ PsaStatus.success →
        (crypto_init_on_call msg eng st).1 = st) ∧
      (Ev.poolReset ∈ (crypto_init_on_call msg eng st).2.2 ↔
        (eng.status .cryptoInit = PsaStatus.success ∧ st.refCounter + 1 = 1))) ∧
    (∀ (msg : Msg) (eng : Engine) (st : GState),
      (crypto_free_on_call msg eng st).2.1 = some PsaStatus.success ∧
      (crypto_free_on_call msg eng st).1.refCounter =
        (if st.refCounter > 0 then st.refCounter - 1 else st.refCounter) ∧
      (Ev.engine .cryptoFree ∈ (crypto_free_on_call msg eng st).2.2 ↔
        (if st.refCounter > 0 then st.refCounter - 1 else st.refCounter) = 0)) := by
  constructor
  · intro msg eng st
    by_cases hs : eng.status .cryptoInit = PsaStatus.success
    · by_cases hc : st.refCounter + 1 = 1
      · refine ⟨?_, ?_, ?_, ?_⟩ <;>
          simp [crypto_init_on_call, hs, hc, List.count_cons]
      · refine ⟨?_, ?_, ?_, ?_⟩ <;>
          simp [crypto_init_on_call, hs, hc, List.count_cons]
    · refine ⟨?_, ?_, ?_, ?_⟩ <;>
        simp [crypto_init_on_call, hs, List.count_cons]
  · intro msg eng st
    by_cases hp : st.refCounter > 0
    · by_cases hz : st.refCounter - 1 = 0
      · refine ⟨?_, ?_, ?_⟩ <;>
          simp [crypto_free_on_call, hp, hz]
      · refine ⟨?_, ?_, ?_⟩ <;>
          simp [crypto_free_on_call, hp, hz]
    · have hz : st.refCounter = 0 ∨ st.refCounter < 0 := by omega
      by_cases h0 : st.refCounter = 0
      · refine ⟨?_, ?_, ?_⟩ <;>
          simp [crypto_free_on_call, hp, h0]
      · have hneg : ¬ st.refCounter = 0 := h0
        refine ⟨?_, ?_, ?_⟩ <;>
          simp [crypto_free_on_call, hp, hneg]

/-- Counterexample for C5: a second init request (counter transition 1 to
2) still invokes engine initialization, and a free request arriving at
counter 0 still performs the full teardown — both contradicting the claim
that the engine is touched only on the 0-1 transitions. -/
theorem C5_counterexample :
    ((1 : Int) + 1 ≠ 1 ∧
      (crypto_init_on_call baseMsg engAll ⟨1, pool2, []⟩).2.2.count
        (Ev.engine .cryptoInit) = 1) ∧
    ((0 : Int) ≠ 1 ∧
      Ev.engine .cryptoFree ∈ (crypto_free_on_call baseMsg engAll ⟨0, pool2, []⟩).2.2) := by
  constructor
  · constructor
    · decide
    · rfl
  · constructor
    · decide
    · simp [crypto_free_on_call]

/-- Witness for C5 on a fresh state and a success engine. -/
theorem C5_witness :
    (crypto_init_on_call baseMsg engAll gs0).1.refCounter = 0 + 1 ∧
    (Ev.poolReset ∈ (crypto_init_on_call baseMsg engAll gs0).2.2 ↔
      (engAll.status .cryptoInit = PsaStatus.success ∧ (0 : Int) + 1 = 1)) ∧
    (crypto_free_on_call baseMsg engAll ⟨2, pool2, []⟩).1.refCounter =
      (if (2 : Int) > 0 then 2 - 1 else 2) :=
  ⟨(C5_amended_lifecycle.1 baseMsg engAll gs0).2.1 rfl,
   (C5_amended_lifecycle.1 baseMsg engAll gs0).2.2.2,
   (C5_amended_lifecycle.2 baseMsg engAll ⟨2, pool2, []⟩).2.1⟩

-- ---------------------------------------------------------------------------
-- Access-control failure behaviour of each handle-taking sub-operation
-- (shared by C1 and C10).
-- ---------------------------------------------------------------------------

theorem mac_acl_fail (msg : Msg) (eng : Engine) (st : GState)
    (hf : msg.ipc.func = SecFunc.macSignSetup ∨ msg.ipc.func = SecFunc.macVerifySetup)
    (hp : psa_crypto_access_control_is_handle_permitted st.acl msg.ipc.handle
      msg.client_id = false) :
    mac_on_call msg eng st = (st, some .errInvalidHandle, []) := by
  rcases hf with hf | hf <;> simp [mac_on_call, hf, hp]

theorem symmetric_acl_fail (msg : Msg) (eng : Engine) (st : GState)
    (hf : msg.ipc.func = SecFunc.cipherEncryptSetup ∨
      msg.ipc.func = SecFunc.cipherDecryptSetup)
    (hp : psa_crypto_access_control_is_handle_permitted st.acl msg.ipc.handle
      msg.client_id = false) :
    symmetric_on_call msg eng st = (st, some .errInvalidHandle, []) := by
  rcases hf with hf | hf <;> simp [symmetric_on_call, hf, hp]

theorem asymmetric_acl_fail (msg : Msg) (eng : Engine) (st : GState)
    (hp : psa_crypto_access_control_is_handle_permitted st.acl msg.ipcAsym.handle
      msg.client_id = false) :
    asymmetric_on_call msg eng st = (st, some .errInvalidHandle, []) := by
  simp [asymmetric_on_call, hp]

theorem aead_acl_fail (msg : Msg) (eng : Engine) (st : GState)
    (hp : psa_crypto_access_control_is_handle_permitted st.acl msg.ipcAead.handle
      msg.client_id = false) :
    aead_on_call msg eng st = (st, some .errInvalidHandle, []) := by
  simp [aead_on_call, hp]

/-- The key-management sub-operations guarded by the access-control check
that write nothing on its failure (all of them except get-key-information,
whose failure path still writes). -/
def kmGuardedFuncs : List SecFunc :=
  [.getKeyLifetime, .setKeyPolicy, .getKeyPolicy, .importKey, .destroyKey,
   .exportKey, .exportPublicKey, .generateKey, .closeKey]

theorem key_mng_call_acl_fail (msg : Msg) (eng : Engine) (st : GState)
    (hf : msg.ipcKeyMng.func ∈ kmGuardedFuncs)
    (hp : psa_crypto_access_control_is_handle_permitted st.acl msg.ipcKeyMng.handle
      msg.client_id = false) :
    key_mng_call msg eng st = some (st, .errInvalidHandle, []) := by
  simp only [kmGuardedFuncs, List.mem_cons, List.not_mem_nil, or_false] at hf
  rcases hf with hf | hf | hf | hf | hf | hf | hf | hf | hf <;>
    simp [key_mng_call, hf, hp]

theorem key_mng_call_getinfo_acl_fail (msg : Msg) (eng : Engine) (st : GState)
    (hf : msg.ipcKeyMng.func = SecFunc.getKeyInformation)
    (hp : psa_crypto_access_control_is_handle_permitted st.acl msg.ipcKeyMng.handle
      msg.client_id = false) :
    key_mng_call msg eng st = some (st, .errInvalidHandle,
      (if sizeof_psa_key_type_t ≤ msg.out_size 0 then [Ev.write 0 0] else []) ++
      (if sizeof_size_t ≤ msg.out_size 1 then [Ev.write 1 0] else [])) := by
  simp [key_mng_call, hf, hp]

theorem generator_call_acl_fail (msg : Msg) (eng : Engine) (st : GState)
    (hf : msg.ipcDeriv.func ∈ ([.generatorImportKey, .keyDerivation, .keyAgreement] :
      List SecFunc))
    (hp : psa_crypto_access_control_is_handle_permitted st.acl msg.ipcDeriv.handle
      msg.client_id = false) :
    generator_call msg eng st = some (st, .errInvalidHandle, []) := by
  simp only [List.mem_cons, List.not_mem_nil, or_false] at hf
  rcases hf with hf | hf | hf <;> simp [generator_call, hf, hp]

theorem km_op_call (msg : Msg) (eng : Engine) (st : GState)
    (htype : msg.type = .call) (hsize : msg.in_size 0 = sizeof_psa_key_mng_ipc_t) :
    psa_key_management_operation msg eng st =
      (key_mng_call msg eng st).map (fun r => (r.1, r.2.2 ++ [Ev.reply (some r.2.1)])) := by
  simp [psa_key_management_operation, htype, hsize]

theorem gen_op_call (msg : Msg) (eng : Engine) (st : GState)
    (htype : msg.type = .call)
    (hsize : msg.in_size 0 = sizeof_psa_crypto_derivation_ipc_t) :
    psa_crypto_generator_operations msg eng st =
      (generator_call msg eng st).map (fun r => (r.1, r.2.2 ++ [Ev.reply (some r.2.1)])) := by
  simp [psa_crypto_generator_operations, htype, hsize]

-- ---------------------------------------------------------------------------
-- C1: every handle-taking sub-operation is gated by the registry check.
-- ---------------------------------------------------------------------------

/-- C1: whenever the caller-supplied handle is not registered to the
calling partition (is_permitted false), every handle-taking sub-operation
— MAC setups, cipher setups, all asymmetric and AEAD codes, the ten
handle-checked key-management codes, and the three handle-checked
generator codes — replies with the invalid-handle status and performs no
Crypto Engine invocation. -/
theorem C1_acl_gates_every_handle_operation :
    (∀ (msg : Msg) (eng : Engine) (st : GState),
      (msg.ipc.func = SecFunc.macSignSetup ∨ msg.ipc.func = SecFunc.macVerifySetup) →
      psa_crypto_access_control_is_handle_permitted st.acl msg.ipc.handle
        msg.client_id = false →
      mac_on_call msg eng st = (st, some .errInvalidHandle, [])) ∧
    (∀ (msg : Msg) (eng : Engine) (st : GState),
      (msg.ipc.func = SecFunc.cipherEncryptSetup ∨
        msg.ipc.func = SecFunc.cipherDecryptSetup) →
      psa_crypto_access_control_is_handle_permitted st.acl msg.ipc.handle
        msg.client_id = false →
      symmetric_on_call msg eng st = (st, some .errInvalidHandle, [])) ∧
    (∀ (msg : Msg) (eng : Engine) (st : GState),
      psa_crypto_access_control_is_handle_permitted st.acl msg.ipcAsym.handle
        msg.client_id = false →
      asymmetric_on_call msg eng st = (st, some .errInvalidHandle, [])) ∧
    (∀ (msg : Msg) (eng : Engine) (st : GState),
      psa_crypto_access_control_is_handle_permitted st.acl msg.ipcAead.handle
        msg.client_id = false →
      aead_on_call msg eng st = (st, some .errInvalidHandle, [])) ∧
    (∀ (msg : Msg) (eng : Engine) (st : GState),
      msg.type = .call → msg.in_size 0 = sizeof_psa_key_mng_ipc_t →
      (msg.ipcKeyMng.func ∈ kmGuardedFuncs ∨
        msg.ipcKeyMng.func = SecFunc.getKeyInformation) →
      psa_crypto_access_control_is_handle_permitted st.acl msg.ipcKeyMng.handle
        msg.client_id = false →
      (psa_key_management_operation msg eng st).map
          (fun r => (r.1.acl, engineEvs r.2, replyStatuses r.2)) =
        some (st.acl, [], [some .errInvalidHandle])) ∧
    (∀ (msg : Msg) (eng : Engine) (st : GState),
      msg.type = .call → msg.in_size 0 = sizeof_psa_crypto_derivation_ipc_t →
      msg.ipcDeriv.func ∈ ([.generatorImportKey, .keyDerivation, .keyAgreement] :
        List SecFunc) →
      psa_crypto_access_control_is_handle_permitted st.acl msg.ipcDeriv.handle
        msg.client_id = false →
      (psa_crypto_generator_operations msg eng st).map
          (fun r => (r.1.acl, engineEvs r.2, replyStatuses r.2)) =
        some (st.acl, [], [some .errInvalidHandle])) := by
  refine ⟨mac_acl_fail, symmetric_acl_fail, asymmetric_acl_fail, aead_acl_fail, ?_, ?_⟩
  · intro msg eng st htype hsize hf hp
    rw [km_op_call msg eng st htype hsize]
    rcases hf with hf | hf
    · rw [key_mng_call_acl_fail msg eng st hf hp]
      simp
    · rw [key_mng_call_getinfo_acl_fail msg eng st hf hp]
      simp only [Option.map_some', List.nil_append]
      split_ifs <;> simp
  · intro msg eng st htype hsize hf hp
    rw [gen_op_call msg eng st htype hsize,
      generator_call_acl_fail msg eng st hf hp]
    simp

/-- Witness for C1: a MAC sign-setup and a key-management export on an
empty registry both fail with invalid-handle and touch no engine entry
point. -/
theorem C1_witness :
    mac_on_call msgMacSetup engAll gs0 = (gs0, some .errInvalidHandle, []) ∧
    (psa_key_management_operation msgKmClose engAll gs0).map
        (fun r => (r.1.acl, engineEvs r.2, replyStatuses r.2)) =
      some (gs0.acl, [], [some .errInvalidHandle]) :=
  ⟨C1_acl_gates_every_handle_operation.1 msgMacSetup engAll gs0 (Or.inl rfl) rfl,
   C1_acl_gates_every_handle_operation.2.2.2.2.1 msgKmClose engAll gs0 rfl rfl
     (Or.inl (by decide)) rfl⟩

-- ---------------------------------------------------------------------------
-- C2: registry registration and unregistration around the engine calls.
-- ---------------------------------------------------------------------------

/-- C2: allocate/create/open register the new handle to the calling
partition (the registration event preceding the single reply, and the
resulting registry containing the record) exactly when the engine reports
success; destroy/close unregister the handle exactly when the engine
reports success and leave the registry unchanged on engine failure. -/
theorem C2_registry_lifecycle :
    (∀ (msg : Msg) (eng : Engine) (st : GState),
      msg.type = .call → msg.in_size 0 = sizeof_psa_key_mng_ipc_t →
      msg.ipcKeyMng.func = SecFunc.allocateKey →
      eng.status .allocateKey = PsaStatus.success →
      psa_key_management_operation msg eng st =
        some ({ st with acl := (eng.newHandle, msg.client_id) :: st.acl },
          [Ev.engine .allocateKey, Ev.aclRegister eng.newHandle msg.client_id,
           Ev.write 0 eng.newHandle, Ev.reply (some .success)])) ∧
    (∀ (msg : Msg) (eng : Engine) (st : GState),
      msg.type = .call → msg.in_size 0 = sizeof_psa_key_mng_ipc_t →
      msg.in_size 1 = CLIENT_PSA_KEY_ID_SIZE_IN_BYTES →
      msg.ipcKeyMng.func = SecFunc.createKey →
      eng.status .createKey = PsaStatus.success →
      psa_key_management_operation msg eng st =
        some ({ st with acl := (eng.newHandle, msg.client_id) :: st.acl },
          [Ev.engine .createKey, Ev.aclRegister eng.newHandle msg.client_id,
           Ev.write 0 eng.newHandle, Ev.reply (some .success)])) ∧
    (∀ (msg : Msg) (eng : Engine) (st : GState),
      msg.type = .call → msg.in_size 0 = sizeof_psa_key_mng_ipc_t →
      msg.in_size 1 = CLIENT_PSA_KEY_ID_SIZE_IN_BYTES →
      msg.ipcKeyMng.func = SecFunc.openKey →
      eng.status .openKey = PsaStatus.success →
      psa_key_management_operation msg eng st =
        some ({ st with acl := (eng.newHandle, msg.client_id) :: st.acl },
          [Ev.engine .openKey, Ev.aclRegister eng.newHandle msg.client_id,
           Ev.write 0 eng.newHandle, Ev.reply (some .success)])) ∧
    (∀ (msg : Msg) (eng : Engine) (st : GState),
      msg.type = .call → msg.in_size 0 = sizeof_psa_key_mng_ipc_t →
      msg.ipcKeyMng.func = SecFunc.destroyKey →
      psa_crypto_access_control_is_handle_permitted st.acl msg.ipcKeyMng.handle
        msg.client_id = true →
      (eng.status .destroyKey = PsaStatus.success →
        psa_key_management_operation msg eng st =
          some ({ st with acl :=
              psa_crypto_access_control_unregister_handle st.acl msg.ipcKeyMng.handle },
            [Ev.engine .destroyKey, Ev.aclUnregister msg.ipcKeyMng.handle,
             Ev.reply (some .success)])) ∧
      (eng.status .destroyKey ≠ PsaStatus.success →
        psa_key_management_operation msg eng st =
          some (st, [Ev.engine .destroyKey,
            Ev.reply (some (eng.status .destroyKey))]))) ∧
    (∀ (msg : Msg) (eng : Engine) (st : GState),
      msg.type = .call → msg.in_size 0 = sizeof_psa_key_mng_ipc_t →
      msg.ipcKeyMng.func = SecFunc.closeKey →
      psa_crypto_access_control_is_handle_permitted st.acl msg.ipcKeyMng.handle
        msg.client_id = true →
      (eng.status .closeKey = PsaStatus.success →
        psa_key_management_operation msg eng st =
          some ({ st with acl :=
              psa_crypto_access_control_unregister_handle st.acl msg.ipcKeyMng.handle },
            [Ev.engine .closeKey, Ev.aclUnregister msg.ipcKeyMng.handle,
             Ev.reply (some .success)])) ∧
      (eng.status .closeKey ≠ PsaStatus.success →
        psa_key_management_operation msg eng st =
          some (st, [Ev.engine .closeKey,
            Ev.reply (some (eng.status .closeKey))]))) := by
  refine ⟨?_, ?_, ?_, ?_, ?_⟩
  · intro msg eng st htype hsize hf hs
    rw [km_op_call msg eng st htype hsize]
    simp [key_mng_call, hf, hs, psa_crypto_access_control_register_handle]
  · intro msg eng st htype hsize hid hf hs
    rw [km_op_call msg eng st htype hsize]
    simp [key_mng_call, hf, hs, hid, psa_crypto_access_control_register_handle]
  · intro msg eng st htype hsize hid hf hs
    rw [km_op_call msg eng st htype hsize]
    simp [key_mng_call, hf, hs, hid, psa_crypto_access_control_register_handle]
  · intro msg eng st htype hsize hf hp
    constructor
    · intro hs
      rw [km_op_call msg eng st htype hsize]
      simp [key_mng_call, hf, hp, hs]
    · intro hs
      rw [km_op_call msg eng st htype hsize]
      simp [key_mng_call, hf, hp, hs]
  · intro msg eng st htype hsize hf hp
    constructor
    · intro hs
      rw [km_op_call msg eng st htype hsize]
      simp [key_mng_call, hf, hp, hs]
    · intro hs
      rw [km_op_call msg eng st htype hsize]
      simp [key_mng_call, hf, hp, hs]

/-- Witness for C2: a successful allocate registers handle 5 to client 4
before the reply; a failed close on a registered handle leaves the record
in place. -/
theorem C2_witness :
    psa_key_management_operation msgKmAlloc engAll gs0 =
      some ({ gs0 with acl := (engAll.newHandle, msgKmAlloc.client_id) :: gs0.acl },
        [Ev.engine .allocateKey, Ev.aclRegister engAll.newHandle msgKmAlloc.client_id,
         Ev.write 0 engAll.newHandle, Ev.reply (some .success)]) ∧
    psa_key_management_operation msgKmClose engFail ⟨0, pool2, [(5, 4)]⟩ =
      some (⟨0, pool2, [(5, 4)]⟩, [Ev.engine .closeKey,
        Ev.reply (some (engFail.status .closeKey))]) :=
  ⟨C2_registry_lifecycle.1 msgKmAlloc engAll gs0 rfl rfl rfl rfl,
   (C2_registry_lifecycle.2.2.2.2 msgKmClose engFail ⟨0, pool2, [(5, 4)]⟩ rfl rfl rfl
      (by decide)).2 (by decide)⟩

-- ---------------------------------------------------------------------------
-- C10: get-key-information writes zeros even on access-control failure.
-- ---------------------------------------------------------------------------

/-- C10: a get-key-information Call whose handle fails the access-control
check still writes a zero key type into output parameter 0 and a zero bit
size into output parameter 1 (whenever each declared capacity fits the
field) before the single invalid-handle reply — while every other
handle-checked sub-operation (the nine other key-management codes, the MAC
and cipher setups, and the asymmetric, AEAD and generator operations)
produces no output-parameter write on an access-control failure. -/
theorem C10_getinfo_writes_zeros_on_acl_fail :
    (∀ (msg : Msg) (eng : Engine) (st : GState),
      msg.type = .call → msg.in_size 0 = sizeof_psa_key_mng_ipc_t →
      msg.ipcKeyMng.func = SecFunc.getKeyInformation →
      psa_crypto_access_control_is_handle_permitted st.acl msg.ipcKeyMng.handle
        msg.client_id = false →
      psa_key_management_operation msg eng st =
        some (st,
          ((if sizeof_psa_key_type_t ≤ msg.out_size 0 then [Ev.write 0 0] else []) ++
           (if sizeof_size_t ≤ msg.out_size 1 then [Ev.write 1 0] else [])) ++
          [Ev.reply (some .errInvalidHandle)])) ∧
    (∀ (msg : Msg) (eng : Engine) (st : GState),
      msg.type = .call → msg.in_size 0 = sizeof_psa_key_mng_ipc_t →
      msg.ipcKeyMng.func ∈ kmGuardedFuncs →
      psa_crypto_access_control_is_handle_permitted st.acl msg.ipcKeyMng.handle
        msg.client_id = false →
      psa_key_management_operation msg eng st =
        some (st, [Ev.reply (some .errInvalidHandle)])) ∧
    (∀ (msg : Msg) (eng : Engine) (st : GState),
      (msg.ipc.func = SecFunc.macSignSetup ∨ msg.ipc.func = SecFunc.macVerifySetup) →
      psa_crypto_access_control_is_handle_permitted st.acl msg.ipc.handle
        msg.client_id = false →
      (mac_on_call msg eng st).2.2 = []) ∧
    (∀ (msg : Msg) (eng : Engine) (st : GState),
      (msg.ipc.func = SecFunc.cipherEncryptSetup ∨
        msg.ipc.func = SecFunc.cipherDecryptSetup) →
      psa_crypto_access_control_is_handle_permitted st.acl msg.ipc.handle
        msg.client_id = false →
      (symmetric_on_call msg eng st).2.2 = []) ∧
    (∀ (msg : Msg) (eng : Engine) (st : GState),
      psa_crypto_access_control_is_handle_permitted st.acl msg.ipcAsym.handle
        msg.client_id = false →
      (asymmetric_on_call msg eng st).2.2 = []) ∧
    (∀ (msg : Msg) (eng : Engine) (st : GState),
      psa_crypto_access_control_is_handle_permitted st.acl msg.ipcAead.handle
        msg.client_id = false →
      (aead_on_call msg eng st).2.2 = []) ∧
    (∀ (msg : Msg) (eng : Engine) (st : GState),
      msg.ipcDeriv.func ∈ ([.generatorImportKey, .keyDerivation, .keyAgreement] :
        List SecFunc) →
      psa_crypto_access_control_is_handle_permitted st.acl msg.ipcDeriv.handle
        msg.client_id = false →
      ∃ r, generator_call msg eng st = some r ∧ r.2.2 = []) := by
  refine ⟨?_, ?_, ?_, ?_, ?_, ?_, ?_⟩
  · intro msg eng st htype hsize hf hp
    rw [km_op_call msg eng st htype hsize,
      key_mng_call_getinfo_acl_fail msg eng st hf hp]
    simp
  · intro msg eng st htype hsize hf hp
    rw [km_op_call msg eng st htype hsize,
      key_mng_call_acl_fail msg eng st hf hp]
    simp
  · intro msg eng st hf hp
    rw [mac_acl_fail msg eng st hf hp]
  · intro msg eng st hf hp
    rw [symmetric_acl_fail msg eng st hf hp]
  · intro msg eng st hp
    rw [asymmetric_acl_fail msg eng st hp]
  · intro msg eng st hp
    rw [aead_acl_fail msg eng st hp]
  · intro msg eng st hf hp
    exact ⟨(st, .errInvalidHandle, []), generator_call_acl_fail msg eng st hf hp, rfl⟩

/-- Witness for C10: with 4- and 8-byte output capacities, an unauthorized
get-key-information writes the two zeros and replies invalid-handle; an
unauthorized export writes nothing. -/
theorem C10_witness :
    psa_key_management_operation msgKmInfo engAll gs0 =
      some (gs0,
        ((if sizeof_psa_key_type_t ≤ msgKmInfo.out_size 0 then [Ev.write 0 0] else []) ++
         (if sizeof_size_t ≤ msgKmInfo.out_size 1 then [Ev.write 1 0] else [])) ++
        [Ev.reply (some .errInvalidHandle)]) ∧
    psa_key_management_operation msgKmClose engAll gs0 =
      some (gs0, [Ev.reply (some .errInvalidHandle)]) :=
  ⟨C10_getinfo_writes_zeros_on_acl_fail.1 msgKmInfo engAll gs0 rfl rfl rfl rfl,
   C10_getinfo_writes_zeros_on_acl_fail.2.1 msgKmClose engAll gs0 rfl rfl
     (by decide) rfl⟩

-- ---------------------------------------------------------------------------
-- C7: the fixed-header size check.
-- ---------------------------------------------------------------------------

/-- C7 (amended): only the key-management and key-derivation (generator)
service kinds compare input parameter 0 against their fixed header size;
there a mismatched length is answered with communication-failure in
exactly one reply, reaching no sub-operation and no engine entry point. -/
theorem C7_amended_header_size_check :
    (∀ (msg : Msg) (eng : Engine) (st : GState),
      msg.type = .call → msg.in_size 0 ≠ sizeof_psa_key_mng_ipc_t →
      psa_key_management_operation msg eng st =
        some (st, [Ev.reply (some .errCommunicationFailure)])) ∧
    (∀ (msg : Msg) (eng : Engine) (st : GState),
      msg.type = .call → msg.in_size 0 ≠ sizeof_psa_crypto_derivation_ipc_t →
      psa_crypto_generator_operations msg eng st =
        some (st, [Ev.reply (some .errCommunicationFailure)])) := by
  constructor
  · intro msg eng st ht hs
    simp [psa_key_management_operation, ht, hs]
  · intro msg eng st ht hs
    simp [psa_crypto_generator_operations, ht, hs]

/-- Counterexample for C7: the MAC service kind also carries a fixed
header in input parameter 0 but performs no size check — a Call with a
zero-length parameter 0 (leaving the zero-initialized header, an
unrecognized code) is answered with not-supported, not with
communication-failure. -/
theorem C7_counterexample :
    msgC7.type = .call ∧ msgC7.in_size 0 ≠ sizeof_psa_crypto_ipc_t ∧
    message_handler (some mac_on_connect) (some mac_on_call) (some mac_on_disconnect)
      msgC7 engAll gs0 = some (gs0, [Ev.reply (some .errNotSupported)]) ∧
    (some PsaStatus.errNotSupported : Option PsaStatus) ≠
      some PsaStatus.errCommunicationFailure := by
  refine ⟨rfl, by decide, rfl, by decide⟩

/-- Witness for C7 on a Call with an empty input parameter 0. -/
theorem C7_witness :
    psa_key_management_operation msgC7 engAll gs0 =
      some (gs0, [Ev.reply (some .errCommunicationFailure)]) ∧
    psa_crypto_generator_operations msgC7 engAll gs0 =
      some (gs0, [Ev.reply (some .errCommunicationFailure)]) :=
  ⟨C7_amended_header_size_check.1 msgC7 engAll gs0 rfl (by decide),
   C7_amended_header_size_check.2 msgC7 engAll gs0 rfl (by decide)⟩

-- ---------------------------------------------------------------------------
-- C8 infrastructure: no handler's switch emits a reply of its own.
-- ---------------------------------------------------------------------------

theorem updateLoop_no_reply (upd : Nat → PsaStatus) (mk : Nat → EngineOp) (L i : Nat) :
    replyStatuses (updateLoop upd mk L i).2 = [] := by
  induction L using Nat.strong_induction_on generalizing i with
  | _ L ih =>
    by_cases h : L = 0
    · subst h
      rw [updateLoop_zero]
      rfl
    · rw [updateLoop_pos upd mk L i h]
      split_ifs
      · simp [ih _ (chunk_sub_lt L h) (i + 1)]
      · simp

theorem crypto_init_on_call_no_reply (msg : Msg) (eng : Engine) (st : GState) :
    replyStatuses (crypto_init_on_call msg eng st).2.2 = [] := by
  simp only [crypto_init_on_call]
  split_ifs <;> simp

theorem crypto_free_on_call_no_reply (msg : Msg) (eng : Engine) (st : GState) :
    replyStatuses (crypto_free_on_call msg eng st).2.2 = [] := by
  simp only [crypto_free_on_call]
  split_ifs <;> simp

theorem mac_on_connect_no_reply (msg : Msg) (eng : Engine) (st : GState) :
    replyStatuses (mac_on_connect msg eng st).2.2 = [] := by
  simp only [mac_on_connect]
  split_ifs <;> simp

theorem hash_on_connect_no_reply (msg : Msg) (eng : Engine) (st : GState) :
    replyStatuses (hash_on_connect msg eng st).2.2 = [] := by
  simp only [hash_on_connect]
  split_ifs <;> simp

theorem symmetric_on_connect_no_reply (msg : Msg) (eng : Engine) (st : GState) :
    replyStatuses (symmetric_on_connect msg eng st).2.2 = [] := by
  simp only [symmetric_on_connect]
  split_ifs <;> simp

theorem mac_on_call_no_reply (msg : Msg) (eng : Engine) (st : GState) :
    replyStatuses (mac_on_call msg eng st).2.2 = [] := by
  cases hf : msg.ipc.func <;> simp only [mac_on_call, hf] <;> (try split_ifs) <;>
    simp [updateLoop_no_reply]

theorem hash_on_call_no_reply (msg : Msg) (eng : Engine) (st : GState) :
    replyStatuses (hash_on_call msg eng st).2.2 = [] := by
  cases hf : msg.ipc.func <;> simp only [hash_on_call, hf]
  case hashCloneEnd =>
    cases hg : get_hash_clone st.pool (msg.inVal 1) msg.client_id <;> simp [hg]
  all_goals (try split_ifs) <;> simp [updateLoop_no_reply]

theorem symmetric_on_call_no_reply (msg : Msg) (eng : Engine) (st : GState) :
    replyStatuses (symmetric_on_call msg eng st).2.2 = [] := by
  cases hf : msg.ipc.func <;> simp only [symmetric_on_call, hf] <;> (try split_ifs) <;> simp

theorem asymmetric_on_call_no_reply (msg : Msg) (eng : Engine) (st : GState) :
    replyStatuses (asymmetric_on_call msg eng st).2.2 = [] := by
  cases hf : msg.ipcAsym.func <;> simp only [asymmetric_on_call, hf] <;>
    (try split_ifs) <;> simp

theorem aead_on_call_no_reply (msg : Msg) (eng : Engine) (st : GState) :
    replyStatuses (aead_on_call msg eng st).2.2 = [] := by
  cases hf : msg.ipcAead.func <;> simp only [aead_on_call, hf] <;>
    (try split_ifs) <;> simp

theorem rng_on_call_no_reply (msg : Msg) (eng : Engine) (st : GState) :
    replyStatuses (rng_on_call msg eng st).2.2 = [] := by
  simp only [rng_on_call]
  split_ifs <;> simp

theorem entropy_on_call_no_reply (msg : Msg) (eng : Engine) (st : GState) :
    replyStatuses (entropy_on_call msg eng st).2.2 = [] := by
  simp only [entropy_on_call]
  split_ifs <;> simp

theorem mac_on_disconnect_no_reply (msg : Msg) (eng : Engine) (st : GState) :
    replyStatuses (mac_on_disconnect msg eng st).2.2 = [] := by
  cases hr : msg.rhandle <;> simp [mac_on_disconnect, hr]

theorem hash_on_disconnect_no_reply (msg : Msg) (eng : Engine) (st : GState) :
    replyStatuses (hash_on_disconnect msg eng st).2.2 = [] := by
  cases hr : msg.rhandle <;> simp [hash_on_disconnect, hr]

theorem symmetric_on_disconnect_no_reply (msg : Msg) (eng : Engine) (st : GState) :
    replyStatuses (symmetric_on_disconnect msg eng st).2.2 = [] := by
  cases hr : msg.rhandle <;> simp [symmetric_on_disconnect, hr]

theorem key_mng_call_no_reply (msg : Msg) (eng : Engine) (st : GState) :
    noReplyTriple (key_mng_call msg eng st) := by
  cases hf : msg.ipcKeyMng.func <;> simp only [key_mng_call, hf] <;>
    (try split_ifs) <;> simp [noReplyTriple]

theorem generator_call_no_reply (msg : Msg) (eng : Engine) (st : GState) :
    noReplyTriple (generator_call msg eng st) := by
  cases hf : msg.ipcDeriv.func <;> simp only [generator_call, hf] <;>
    (try split_ifs) <;> simp [noReplyTriple]

theorem message_handler_one_reply (conn call disc : Option Handler) (msg : Msg)
    (eng : Engine) (st st1 : GState) (evs : List Ev)
    (hc : ∀ f ∈ conn, replyStatuses (f msg eng st).2.2 = [])
    (hca : ∀ f ∈ call, replyStatuses (f msg eng st).2.2 = [])
    (hd : ∀ f ∈ disc, replyStatuses (f msg eng st).2.2 = [])
    (h : message_handler conn call disc msg eng st = some (st1, evs)) :
    (replyStatuses evs).length = 1 := by
  cases ht : msg.type <;> simp only [message_handler, ht] at h
  · cases conn with
    | none =>
      simp only [Option.some.injEq, Prod.mk.injEq] at h
      obtain ⟨_, rfl⟩ := h
      simp
    | some f =>
      simp only [Option.some.injEq, Prod.mk.injEq] at h
      obtain ⟨_, rfl⟩ := h
      simp [hc f (Option.mem_some_iff.mpr rfl)]
  · cases call with
    | none =>
      simp only [Option.some.injEq, Prod.mk.injEq] at h
      obtain ⟨_, rfl⟩ := h
      simp
    | some f =>
      simp only [Option.some.injEq, Prod.mk.injEq] at h
      obtain ⟨_, rfl⟩ := h
      simp [hca f (Option.mem_some_iff.mpr rfl)]
  · cases disc with
    | none =>
      simp only [Option.some.injEq, Prod.mk.injEq] at h
      obtain ⟨_, rfl⟩ := h
      simp
    | some f =>
      simp only [Option.some.injEq, Prod.mk.injEq] at h
      obtain ⟨_, rfl⟩ := h
      simp [hd f (Option.mem_some_iff.mpr rfl)]
  · simp at h

theorem km_op_one_reply (msg : Msg) (eng : Engine) (st st1 : GState) (evs : List Ev)
    (h : psa_key_management_operation msg eng st = some (st1, evs)) :
    (replyStatuses evs).length = 1 := by
  cases ht : msg.type <;> simp only [psa_key_management_operation, ht] at h
  · simp only [Option.some.injEq, Prod.mk.injEq] at h
    obtain ⟨_, rfl⟩ := h
    simp
  · split_ifs at h with hsz
    · simp only [Option.some.injEq, Prod.mk.injEq] at h
      obtain ⟨_, rfl⟩ := h
      simp
    · cases hk : key_mng_call msg eng st with
      | none => rw [hk] at h; simp at h
      | some r =>
        rw [hk] at h
        simp only [Option.map_some', Option.some.injEq, Prod.mk.injEq] at h
        obtain ⟨_, rfl⟩ := h
        have hnr := key_mng_call_no_reply msg eng st
        rw [hk] at hnr
        simp only [noReplyTriple] at hnr
        simp [hnr]
  · simp only [Option.some.injEq, Prod.mk.injEq] at h
    obtain ⟨_, rfl⟩ := h
    simp
  · simp at h

theorem gen_op_one_reply (msg : Msg) (eng : Engine) (st st1 : GState) (evs : List Ev)
    (h : psa_crypto_generator_operations msg eng st = some (st1, evs)) :
    (replyStatuses evs).length = 1 := by
  cases ht : msg.type <;> simp only [psa_crypto_generator_operations, ht] at h
  · split_ifs at h <;>
      (simp only [Option.some.injEq, Prod.mk.injEq] at h
       obtain ⟨_, rfl⟩ := h
       simp)
  · split_ifs at h with hsz
    · simp only [Option.some.injEq, Prod.mk.injEq] at h
      obtain ⟨_, rfl⟩ := h
      simp
    · cases hk : generator_call msg eng st with
      | none => rw [hk] at h; simp at h
      | some r =>
        rw [hk] at h
        simp only [Option.map_some', Option.some.injEq, Prod.mk.injEq] at h
        obtain ⟨_, rfl⟩ := h
        have hnr := generator_call_no_reply msg eng st
        rw [hk] at hnr
        simp only [noReplyTriple] at hnr
        simp [hnr]
  · cases hr : msg.rhandle <;> rw [hr] at h <;>
      (simp only [Option.some.injEq, Prod.mk.injEq] at h
       obtain ⟨_, rfl⟩ := h
       simp)
  · simp at h

theorem dispatchSignal_one_reply (s : Sig) (msg : Msg) (eng : Engine)
    (st st1 : GState) (evs : List Ev)
    (h : dispatchSignal s msg eng st = some (st1, evs)) :
    (replyStatuses evs).length = 1 := by
  cases s
  case keyMng => exact km_op_one_reply msg eng st st1 evs h
  case generator => exact gen_op_one_reply msg eng st st1 evs h
  all_goals
    simp only [dispatchSignal] at h
    refine message_handler_one_reply _ _ _ msg eng st st1 evs ?_ ?_ ?_ h <;>
      intro f hf <;>
      first
        | exact absurd hf (Option.not_mem_none f)
        | (obtain rfl := Option.mem_some_iff.mp hf
           first
            | exact crypto_init_on_call_no_reply msg eng st
            | exact crypto_free_on_call_no_reply msg eng st
            | exact mac_on_connect_no_reply msg eng st
            | exact mac_on_call_no_reply msg eng st
            | exact mac_on_disconnect_no_reply msg eng st
            | exact hash_on_connect_no_reply msg eng st
            | exact hash_on_call_no_reply msg eng st
            | exact hash_on_disconnect_no_reply msg eng st
            | exact symmetric_on_connect_no_reply msg eng st
            | exact symmetric_on_call_no_reply msg eng st
            | exact symmetric_on_disconnect_no_reply msg eng st
            | exact asymmetric_on_call_no_reply msg eng st
            | exact aead_on_call_no_reply msg eng st
            | exact rng_on_call_no_reply msg eng st
            | exact entropy_on_call_no_reply msg eng st)

theorem iterationAux_spec (asserted : Sig → Bool) (retrieve : Sig → Option Msg)
    (eng : Engine) :
    ∀ (order : List Sig) (st st2 : GState) (segs : List (Sig × List Ev)),
      iterationAux asserted retrieve eng order st = some (st2, segs) →
      segs.map Prod.fst = expectedServiced asserted retrieve order ∧
      ∀ seg ∈ segs, (replyStatuses seg.2).length = 1 := by
  intro order
  induction order with
  | nil =>
    intro st st2 segs h
    simp only [iterationAux, Option.some.injEq, Prod.mk.injEq] at h
    obtain ⟨_, rfl⟩ := h
    simp [expectedServiced]
  | cons s rest ih =>
    intro st st2 segs h
    by_cases ha : asserted s = true
    · cases hr : retrieve s with
      | none =>
        simp [iterationAux, ha, hr] at h
        obtain ⟨rfl, rfl⟩ := h
        simp [expectedServiced, ha, hr]
      | some m =>
        cases hd : dispatchSignal s m eng st with
        | none => simp [iterationAux, ha, hr, hd] at h
        | some p =>
          obtain ⟨st1, evs⟩ := p
          cases hit : iterationAux asserted retrieve eng rest st1 with
          | none => simp [iterationAux, ha, hr, hd, hit] at h
          | some q =>
            obtain ⟨st3, segs2⟩ := q
            simp [iterationAux, ha, hr, hd, hit] at h
            obtain ⟨rfl, rfl⟩ := h
            obtain ⟨ih1, ih2⟩ := ih st1 st3 segs2 hit
            refine ⟨?_, ?_⟩
            · simp [expectedServiced, ha, hr, ih1]
            · intro seg hseg
              rcases List.mem_cons.mp hseg with rfl | hseg2
              · exact dispatchSignal_one_reply s m eng st st1 evs hd
              · exact ih2 seg hseg2
    · simp only [iterationAux, ha, if_false, Bool.false_eq_true] at h
      rw [expectedServiced]
      simp only [ha, if_false, Bool.false_eq_true]
      exact ih st st2 segs h

-- ---------------------------------------------------------------------------
-- C8: the dispatch loop iteration.
-- ---------------------------------------------------------------------------

/-- C8 (amended): in one iteration of the dispatch loop, the serviced
signals are exactly the asserted signals in the fixed check order CUT
SHORT at the first one whose message retrieval fails (the `continue`
abandons the rest of the iteration, so later asserted signals are NOT
serviced that iteration); each serviced signal gets exactly one message
retrieved and exactly one reply. -/
theorem C8_amended_dispatch_iteration (asserted : Sig → Bool)
    (retrieve : Sig → Option Msg) (eng : Engine) (st st2 : GState)
    (segs : List (Sig × List Ev))
    (h : crypto_main_iteration asserted retrieve eng st = some (st2, segs)) :
    segs.map Prod.fst = expectedServiced asserted retrieve checkOrder ∧
    ∀ seg ∈ segs, (replyStatuses seg.2).length = 1 :=
  iterationAux_spec asserted retrieve eng checkOrder st st2 segs h

/-- Counterexample for C8: with crypto-init and MAC both asserted but
init's retrieval failing, the MAC signal — though asserted and
retrievable — is not serviced in the iteration (no segment at all is
produced), contradicting the claim that only the failing signal is
skipped. -/
theorem C8_counterexample :
    assertedIM .mac = true ∧ (retrieveIM .mac).isSome = true ∧
    retrieveIM .init = none ∧
    crypto_main_iteration assertedIM retrieveIM engAll gs0 = some (gs0, []) := by
  refine ⟨rfl, rfl, rfl, ?_⟩
  decide

/-- Witness for C8: a single asserted MAC signal with a successful
retrieval is serviced once with exactly one reply. -/
theorem C8_witness :
    ([(Sig.mac, [Ev.allocCtx engAll.newCtx, Ev.reply (some PsaStatus.success)])].map
        Prod.fst = expectedServiced assertedM retrieveM checkOrder) ∧
    ∀ seg ∈ [(Sig.mac, [Ev.allocCtx engAll.newCtx, Ev.reply (some PsaStatus.success)])],
      (replyStatuses seg.2).length = 1 :=
  C8_amended_dispatch_iteration assertedM retrieveM engAll gs0 gs0 _ (by decide)

-- ---------------------------------------------------------------------------
-- C6 infrastructure: the call handlers never release the context, and the
-- clone pool keeps at most one slot per context.
-- ---------------------------------------------------------------------------

theorem updateLoop_no_freeCtx (upd : Nat → PsaStatus) (mk : Nat → EngineOp)
    (L i x : Nat) : Ev.freeCtx x ∉ (updateLoop upd mk L i).2 := by
  induction L using Nat.strong_induction_on generalizing i with
  | _ L ih =>
    by_cases h : L = 0
    · subst h
      rw [updateLoop_zero]
      simp
    · rw [updateLoop_pos upd mk L i h]
      split_ifs
      · simp [ih _ (chunk_sub_lt L h) (i + 1)]
      · simp

theorem mac_on_call_no_freeCtx (msg : Msg) (eng : Engine) (st : GState) (x : Nat) :
    Ev.freeCtx x ∉ (mac_on_call msg eng st).2.2 := by
  cases hf : msg.ipc.func <;> simp only [mac_on_call, hf] <;> (try split_ifs) <;>
    simp [updateLoop_no_freeCtx]

theorem hash_on_call_no_freeCtx (msg : Msg) (eng : Engine) (st : GState) (x : Nat) :
    Ev.freeCtx x ∉ (hash_on_call msg eng st).2.2 := by
  cases hf : msg.ipc.func <;> simp only [hash_on_call, hf]
  case hashCloneEnd =>
    cases hg : get_hash_clone st.pool (msg.inVal 1) msg.client_id <;> simp [hg]
  all_goals (try split_ifs) <;> simp [updateLoop_no_freeCtx]

theorem symmetric_on_call_no_freeCtx (msg : Msg) (eng : Engine) (st : GState) (x : Nat) :
    Ev.freeCtx x ∉ (symmetric_on_call msg eng st).2.2 := by
  cases hf : msg.ipc.func <;> simp only [symmetric_on_call, hf] <;> (try split_ifs) <;>
    simp

theorem runCalls_no_freeCtx (h : Handler)
    (hh : ∀ msg eng st x, Ev.freeCtx x ∉ (h msg eng st).2.2)
    (c : Int) (ctx : Nat) (x : Nat) :
    ∀ (calls : List CallReq) (st : GState),
      Ev.freeCtx x ∉ (runCalls h c ctx calls st).2
  | [], st => by simp [runCalls]
  | r :: rest, st => by
    simp only [runCalls, List.mem_append]
    push_neg
    exact ⟨hh _ _ _ x, runCalls_no_freeCtx h hh c ctx x rest _⟩

theorem ctxCount_set : ∀ (pool : List Slot) (i : Nat) (x : Slot) (ctx : Nat),
    i < pool.length →
    ctxCount ctx (pool.set i x) +
      (if (slotAt pool i).source_operation == some ctx then 1 else 0) =
    ctxCount ctx pool + (if x.source_operation == some ctx then 1 else 0)
  | [], i, x, ctx, hi => by simp at hi
  | s :: rest, 0, x, ctx, _ => by
    simp only [List.set, slotAt_cons_zero, ctxCount, List.countP_cons]
    omega
  | s :: rest, i + 1, x, ctx, hi => by
    have ihx := ctxCount_set rest i x ctx (by simpa using hi)
    simp only [List.set, slotAt_cons_succ, ctxCount, List.countP_cons] at ihx ⊢
    omega

theorem ctxCount_zero_iff (ctx : Nat) (pool : List Slot) :
    ctxCount ctx pool = 0 ↔ ∀ s ∈ pool, s.source_operation ≠ some ctx := by
  simp only [ctxCount, List.countP_eq_zero]
  constructor
  · intro h s hs hc
    have := h s hs
    simp [hc] at this
  · intro h s hs
    simp [h s hs]

theorem ctxOk_set (c : Int) (ctx : Nat) (pool : List Slot) (i : Nat) (x : Slot)
    (hi : i < pool.length)
    (hcase : x.source_operation = some ctx →
      (slotAt pool i).source_operation = some ctx ∧ x.partition_id = c)
    (hok : ctxOk c ctx pool) : ctxOk c ctx (pool.set i x) := by
  obtain ⟨hcnt, hown⟩ := hok
  constructor
  · have hx := ctxCount_set pool i x ctx hi
    by_cases hxc : x.source_operation = some ctx
    · obtain ⟨hold, _⟩ := hcase hxc
      simp only [hxc, hold, beq_self_eq_true, if_true] at hx
      omega
    · have hxb : (x.source_operation == some ctx) = false := by
        simp [hxc]
      rw [hxb] at hx
      simp only [Bool.false_eq_true, if_false] at hx
      omega
  · intro s' hs' hsrc
    rcases List.mem_or_eq_of_mem_set hs' with hold | rfl
    · exact hown s' hold hsrc
    · exact (hcase hsrc).2

theorem ctxOk_set_fresh (c : Int) (ctx : Nat) (pool : List Slot) (i : Nat) (x : Slot)
    (hi : i < pool.length) (hzero : ctxCount ctx pool = 0)
    (hx : x.partition_id = c) : ctxOk c ctx (pool.set i x) := by
  have hnone := (ctxCount_zero_iff ctx pool).mp hzero
  constructor
  · have hxch := ctxCount_set pool i x ctx hi
    have hob : ((slotAt pool i).source_operation == some ctx) = false := by
      simp [hnone _ (slotAt_mem pool i hi)]
    rw [hob] at hxch
    simp only [Bool.false_eq_true, if_false] at hxch
    by_cases hxc : x.source_operation = some ctx <;> simp [hxc] at hxch <;> omega
  · intro s' hs' hsrc
    rcases List.mem_or_eq_of_mem_set hs' with hold | rfl
    · exact absurd hsrc (hnone s' hold)
    · exact hx

theorem ctxOk_of_count_zero (c : Int) (ctx : Nat) (pool : List Slot)
    (hzero : ctxCount ctx pool = 0) : ctxOk c ctx pool :=
  ⟨by omega, fun s hs hsrc => absurd hsrc ((ctxCount_zero_iff ctx pool).mp hzero s hs)⟩

theorem findPairIdx_spec_2 (src : Option Nat) :
    ∀ (pool : List Slot) (i : Nat), destroy_hash_clone.findPairIdx' src pool = some i →
      i < pool.length ∧ (slotAt pool i).source_operation = src := by
  intro pool
  induction pool with
  | nil => intro i h; simp [destroy_hash_clone.findPairIdx'] at h
  | cons s rest ih =>
    intro i h
    by_cases hs : s.source_operation = src
    · simp [destroy_hash_clone.findPairIdx', hs] at h
      subst h
      exact ⟨by simp, hs⟩
    · simp [destroy_hash_clone.findPairIdx', hs] at h
      obtain ⟨j, hj, rfl⟩ := h
      obtain ⟨h1, h2⟩ := ih j hj
      exact ⟨by simpa using h1, by simpa using h2⟩

theorem findPairIdx_2_eq_none (src : Option Nat) :
    ∀ pool : List Slot, destroy_hash_clone.findPairIdx' src pool = none ↔
      ∀ s ∈ pool, s.source_operation ≠ src
  | [] => by simp [destroy_hash_clone.findPairIdx']
  | s :: rest => by
    by_cases hs : s.source_operation = src
    · simp [destroy_hash_clone.findPairIdx', hs]
    · rw [destroy_hash_clone.findPairIdx', if_neg hs]
      simp only [Option.map_eq_none', findPairIdx_2_eq_none src rest]
      constructor
      · intro h s' hm
        rcases List.mem_cons.mp hm with rfl | hm2
        · exact hs
        · exact h s' hm2
      · intro h s' hm
        exact h s' (List.mem_cons_of_mem _ hm)

theorem destroy_ctxOk (c : Int) (ctx : Nat) (pool : List Slot) (src : Option Nat)
    (hok : ctxOk c ctx pool) : ctxOk c ctx (destroy_hash_clone pool src) := by
  unfold destroy_hash_clone
  cases hm : destroy_hash_clone.findPairIdx' src pool with
  | some i =>
    obtain ⟨hi, _⟩ := findPairIdx_spec_2 src pool i hm
    exact ctxOk_set c ctx pool i freeSlot hi (by intro h; cases h) hok
  | none => exact hok

theorem destroy_ctxCount_zero (ctx : Nat) (pool : List Slot)
    (hle : ctxCount ctx pool ≤ 1) :
    ctxCount ctx (destroy_hash_clone pool (some ctx)) = 0 := by
  cases hm : destroy_hash_clone.findPairIdx' (some ctx) pool with
  | some i =>
    have hd : destroy_hash_clone pool (some ctx) = pool.set i freeSlot := by
      unfold destroy_hash_clone
      rw [hm]
    obtain ⟨hi, hs⟩ := findPairIdx_spec_2 (some ctx) pool i hm
    have hx := ctxCount_set pool i freeSlot ctx hi
    rw [hs] at hx
    simp only [beq_self_eq_true, if_true] at hx
    have hfc : ((freeSlot : Slot).source_operation == some ctx) = false := rfl
    rw [hfc] at hx
    simp only [Bool.false_eq_true, if_false] at hx
    rw [hd]
    omega
  | none =>
    have hd : destroy_hash_clone pool (some ctx) = pool := by
      unfold destroy_hash_clone
      rw [hm]
    rw [hd, ctxCount_zero_iff]
    exact fun s hs => ((findPairIdx_2_eq_none (some ctx) pool).mp hm) s hs

theorem get_hash_clone_lt (pool : List Slot) (index : Nat) (pid : Int) (s : Slot)
    (h : get_hash_clone pool index pid = some s) : index < pool.length := by
  unfold get_hash_clone at h
  split_ifs at h with h1
  · omega

theorem reserve_ctxOk (c : Int) (ctx : Nat) (pool : List Slot)
    (hok : ctxOk c ctx pool) :
    ctxOk c ctx (reserve_hash_clone pool c (some ctx)).2.2 := by
  unfold reserve_hash_clone
  cases hm : findPairIdx c (some ctx) pool with
  | some i =>
    obtain ⟨hi, hp, hs⟩ := findPairIdx_spec c (some ctx) pool i hm
    refine ctxOk_set c ctx pool i _ hi ?_ hok
    intro _
    exact ⟨hs, hp⟩
  | none =>
    cases hfr : findFreeIdx pool with
    | some i =>
      obtain ⟨hi, _, _⟩ := findFreeIdx_spec pool i hfr
      have hzero : ctxCount ctx pool = 0 := by
        rw [ctxCount_zero_iff]
        intro s hs hc
        exact ((findPairIdx_eq_none c (some ctx) pool).mp hm) s hs
          ⟨hok.2 s hs hc, hc⟩
      exact ctxOk_set_fresh c ctx pool i _ hi hzero rfl
    | none => exact hok

theorem release_ctxOk (c : Int) (ctx : Nat) (pool : List Slot) (i : Nat)
    (hi : i < pool.length) (hok : ctxOk c ctx pool) :
    ctxOk c ctx (pool.set i (release_hash_clone (slotAt pool i))) := by
  refine ctxOk_set c ctx pool i _ hi ?_ hok
  intro hsrc
  simp only [release_hash_clone] at hsrc
  split_ifs at hsrc with hz
  · exact absurd hsrc (by simp [freeSlot])
  · simp only [release_hash_clone, if_neg hz]
    exact ⟨hsrc, hok.2 _ (slotAt_mem pool i hi) hsrc⟩

theorem hash_on_call_ctxOk (c : Int) (ctx : Nat) (r : CallReq) (st : GState)
    (hok : ctxOk c ctx st.pool) :
    ctxOk c ctx (hash_on_call (mkCallMsg c ctx r) r.eng st).1.pool := by
  have hmsg1 : (mkCallMsg c ctx r).ipc = r.ipc := rfl
  have hmsg2 : (mkCallMsg c ctx r).rhandle = some ctx := rfl
  have hmsg3 : (mkCallMsg c ctx r).client_id = c := rfl
  cases hf : r.ipc.func <;>
    simp only [hash_on_call, hmsg1, hmsg2, hmsg3, hf]
  case hashCloneBegin =>
    split_ifs <;> exact reserve_ctxOk c ctx st.pool hok
  case hashCloneEnd =>
    cases hg : get_hash_clone st.pool ((mkCallMsg c ctx r).inVal 1) c with
    | none => exact hok
    | some s =>
      exact release_ctxOk c ctx st.pool ((mkCallMsg c ctx r).inVal 1)
        (get_hash_clone_lt st.pool _ c s hg) hok
  all_goals (try split_ifs) <;>
    first
      | exact hok
      | exact destroy_ctxOk c ctx st.pool (some ctx) hok

theorem runCalls_hash_ctxOk (c : Int) (ctx : Nat) :
    ∀ (calls : List CallReq) (st : GState), ctxOk c ctx st.pool →
      ctxOk c ctx (runCalls hash_on_call c ctx calls st).1.pool
  | [], st, hok => hok
  | r :: rest, st, hok => by
    simp only [runCalls]
    exact runCalls_hash_ctxOk c ctx rest _ (hash_on_call_ctxOk c ctx r st hok)

-- ---------------------------------------------------------------------------
-- C6: the operation context is released exactly once, at disconnect.
-- ---------------------------------------------------------------------------

/-- C6: for any hash, MAC or cipher connection — Connect (context
allocation succeeding), any sequence of Calls (succeeding or failing),
then Disconnect — the context is released exactly once, at disconnect,
after the service kind's abort was invoked on it; for hash connections the
clone-destroy runs before the release and the final pool holds no slot
referencing the context (given the fresh context was referenced by no slot
initially). -/
theorem C6_context_released_once_at_disconnect :
    (∀ (c : Int) (cEng : Engine) (calls : List CallReq) (dEng : Engine) (st : GState),
      cEng.allocOk 0 = true → ctxCount cEng.newCtx st.pool = 0 →
      ∃ front,
        (hash_connection c cEng calls dEng st).2 =
          Ev.allocCtx cEng.newCtx :: front ++
            [Ev.engine .hashAbort, Ev.cloneDestroy (some cEng.newCtx),
             Ev.freeCtx cEng.newCtx] ∧
        Ev.freeCtx cEng.newCtx ∉ front ∧
        (hash_connection c cEng calls dEng st).2.count (Ev.freeCtx cEng.newCtx) = 1 ∧
        ctxCount cEng.newCtx (hash_connection c cEng calls dEng st).1.pool = 0) ∧
    (∀ (c : Int) (cEng : Engine) (calls : List CallReq) (dEng : Engine) (st : GState),
      cEng.allocOk 0 = true →
      ∃ front,
        (mac_connection c cEng calls dEng st).2 =
          Ev.allocCtx cEng.newCtx :: front ++
            [Ev.engine .macAbort, Ev.freeCtx cEng.newCtx] ∧
        Ev.freeCtx cEng.newCtx ∉ front ∧
        (mac_connection c cEng calls dEng st).2.count (Ev.freeCtx cEng.newCtx) = 1) ∧
    (∀ (c : Int) (cEng : Engine) (calls : List CallReq) (dEng : Engine) (st : GState),
      cEng.allocOk 0 = true →
      ∃ front,
        (symmetric_connection c cEng calls dEng st).2 =
          Ev.allocCtx cEng.newCtx :: front ++
            [Ev.engine .cipherAbort, Ev.freeCtx cEng.newCtx] ∧
        Ev.freeCtx cEng.newCtx ∉ front ∧
        (symmetric_connection c cEng calls dEng st).2.count
          (Ev.freeCtx cEng.newCtx) = 1) := by
  refine ⟨?_, ?_, ?_⟩
  · intro c cEng calls dEng st halloc hzero
    have hk : hash_on_connect (mkConnMsg c) cEng st =
        (st, some PsaStatus.success, [Ev.allocCtx cEng.newCtx]) := by
      simp [hash_on_connect, halloc]
    have htr : (hash_connection c cEng calls dEng st).2 =
        Ev.allocCtx cEng.newCtx ::
          ((runCalls hash_on_call c cEng.newCtx calls st).2 ++
            [Ev.engine .hashAbort, Ev.cloneDestroy (some cEng.newCtx),
             Ev.freeCtx cEng.newCtx]) := by
      simp [hash_connection, hk, hash_on_disconnect, mkDiscMsg]
    have hpool : (hash_connection c cEng calls dEng st).1.pool =
        destroy_hash_clone (runCalls hash_on_call c cEng.newCtx calls st).1.pool
          (some cEng.newCtx) := by
      simp [hash_connection, hk, hash_on_disconnect, mkDiscMsg]
    have hfree0 : Ev.freeCtx cEng.newCtx ∉
        (runCalls hash_on_call c cEng.newCtx calls st).2 :=
      runCalls_no_freeCtx hash_on_call
        (fun m e s x => hash_on_call_no_freeCtx m e s x) c cEng.newCtx cEng.newCtx
        calls st
    have hokT : ctxOk c cEng.newCtx
        (runCalls hash_on_call c cEng.newCtx calls st).1.pool :=
      runCalls_hash_ctxOk c cEng.newCtx calls st
        (ctxOk_of_count_zero c cEng.newCtx st.pool hzero)
    refine ⟨(runCalls hash_on_call c cEng.newCtx calls st).2, htr, hfree0, ?_, ?_⟩
    · rw [htr]
      simp [List.count_cons, List.count_append, List.count_eq_zero.mpr hfree0]
    · rw [hpool]
      exact destroy_ctxCount_zero cEng.newCtx _ hokT.1
  · intro c cEng calls dEng st halloc
    have hk : mac_on_connect (mkConnMsg c) cEng st =
        (st, some PsaStatus.success, [Ev.allocCtx cEng.newCtx]) := by
      simp [mac_on_connect, halloc]
    have htr : (mac_connection c cEng calls dEng st).2 =
        Ev.allocCtx cEng.newCtx ::
          ((runCalls mac_on_call c cEng.newCtx calls st).2 ++
            [Ev.engine .macAbort, Ev.freeCtx cEng.newCtx]) := by
      simp [mac_connection, hk, mac_on_disconnect, mkDiscMsg]
    have hfree0 : Ev.freeCtx cEng.newCtx ∉
        (runCalls mac_on_call c cEng.newCtx calls st).2 :=
      runCalls_no_freeCtx mac_on_call
        (fun m e s x => mac_on_call_no_freeCtx m e s x) c cEng.newCtx cEng.newCtx
        calls st
    refine ⟨(runCalls mac_on_call c cEng.newCtx calls st).2, htr, hfree0, ?_⟩
    rw [htr]
    simp [List.count_cons, List.count_append, List.count_eq_zero.mpr hfree0]
  · intro c cEng calls dEng st halloc
    have hk : symmetric_on_connect (mkConnMsg c) cEng st =
        (st, some PsaStatus.success, [Ev.allocCtx cEng.newCtx]) := by
      simp [symmetric_on_connect, halloc]
    have htr : (symmetric_connection c cEng calls dEng st).2 =
        Ev.allocCtx cEng.newCtx ::
          ((runCalls symmetric_on_call c cEng.newCtx calls st).2 ++
            [Ev.engine .cipherAbort, Ev.freeCtx cEng.newCtx]) := by
      simp [symmetric_connection, hk, symmetric_on_disconnect, mkDiscMsg]
    have hfree0 : Ev.freeCtx cEng.newCtx ∉
        (runCalls symmetric_on_call c cEng.newCtx calls st).2 :=
      runCalls_no_freeCtx symmetric_on_call
        (fun m e s x => symmetric_on_call_no_freeCtx m e s x) c cEng.newCtx
        cEng.newCtx calls st
    refine ⟨(runCalls symmetric_on_call c cEng.newCtx calls st).2, htr, hfree0, ?_⟩
    rw [htr]
    simp [List.count_cons, List.count_append, List.count_eq_zero.mpr hfree0]

/-- Witness for C6 on a call-free hash connection and MAC connection. -/
theorem C6_witness :
    (∃ front,
      (hash_connection 1 engAll [] engAll gs0).2 =
        Ev.allocCtx engAll.newCtx :: front ++
          [Ev.engine .hashAbort, Ev.cloneDestroy (some engAll.newCtx),
           Ev.freeCtx engAll.newCtx] ∧
      Ev.freeCtx engAll.newCtx ∉ front ∧
      (hash_connection 1 engAll [] engAll gs0).2.count (Ev.freeCtx engAll.newCtx) = 1 ∧
      ctxCount engAll.newCtx (hash_connection 1 engAll [] engAll gs0).1.pool = 0) ∧
    (∃ front,
      (mac_connection 1 engAll [] engAll gs0).2 =
        Ev.allocCtx engAll.newCtx :: front ++
          [Ev.engine .macAbort, Ev.freeCtx engAll.newCtx] ∧
      Ev.freeCtx engAll.newCtx ∉ front ∧
      (mac_connection 1 engAll [] engAll gs0).2.count (Ev.freeCtx engAll.newCtx) = 1) :=
  ⟨C6_context_released_once_at_disconnect.1 1 engAll [] engAll gs0 rfl (by decide),
   C6_context_released_once_at_disconnect.2.1 1 engAll [] engAll gs0 rfl⟩
